import Mathlib

/-!
Verification development for the Scarecrovv game simulator
(modular engine generation under src/scarecrovv: model, engine, bots, loop).

Python data structures are shallowly embedded:
* Python dicts become insertion-ordered association lists (`Dict`), with
  `get` / item-assignment / `del` mirroring dict semantics (first occurrence
  of a key is the binding; assignment updates in place or appends).
* Python ints become `Int`; Python floats in the bot heuristics become `ℚ`
  (exact rationals; only the float`s determinism-relevant behaviour matters
  for the claims proved here, not binary rounding).
* Mutation becomes explicit state passing: a Python function mutating a
  `PlayerState` becomes a Lean function returning the updated `PlayerState`.
* The Python standard library PRNG (`random.Random(seed)`) is an external
  collaborator; it is modelled as a deterministic stream (an LCG) consumed
  in the same call order as the source, which is exactly the property the
  spec relies on ("RNG stream is single global sequence per game instance;
  the same seed must reproduce the same full game").
-/

namespace Scarecrovv

/-! ## Python dict embedding (insertion-ordered association lists) -/

/-- Dict models a Python dict as an insertion-ordered association list.
Keys are unique in every dict the source constructs; lookups return the
first binding so shadowed entries (possible for arbitrary lists) are inert. -/
abbrev Dict (α β : Type) : Type := List (α × β)

namespace Dict

def get? {α β : Type} [DecidableEq α] : Dict α β → α → Option β
  | [], _ => none
  | (k, v) :: rest, key => if k = key then some v else get? rest key

/-- getD mirrors Python `d.get(key, default)`. -/
def getD {α β : Type} [DecidableEq α] (d : Dict α β) (key : α) (default : β) : β :=
  (d.get? key).getD default

/-- hasKey mirrors Python `key in d`. -/
def hasKey {α β : Type} [DecidableEq α] (d : Dict α β) (key : α) : Bool :=
  (d.get? key).isSome

/-- set mirrors Python `d[key] = v`: update the first binding in place,
or append a new binding at the end (insertion order). -/
def set {α β : Type} [DecidableEq α] : Dict α β → α → β → Dict α β
  | [], key, v => [(key, v)]
  | (k, w) :: rest, key, v =>
    if k = key then (k, v) :: rest else (k, w) :: set rest key v

/-- del mirrors Python `del d[key]` (removes the first binding). -/
def del {α β : Type} [DecidableEq α] : Dict α β → α → Dict α β
  | [], _ => []
  | (k, w) :: rest, key => if k = key then rest else (k, w) :: del rest key

/-- keys mirrors Python `d.keys()` (insertion order). -/
def keys {α β : Type} (d : Dict α β) : List α := d.map Prod.fst

/-- values mirrors Python `d.values()` (insertion order). -/
def values {α β : Type} (d : Dict α β) : List β := d.map Prod.snd

end Dict

/-- getI mirrors Python `d.get(key, 0)` for int-valued dicts. -/
def dGetI {α : Type} [DecidableEq α] (d : Dict α Int) (key : α) : Int :=
  d.getD key 0

/-! ## Python string primitives -/

/-- listLeadsWith checks that `hay` begins with `needle`. -/
def listLeadsWith : List Char → List Char → Bool
  | [], _ => true
  | _ :: _, [] => false
  | a :: as, b :: bs => a = b && listLeadsWith as bs

/-- pyStartsWith models Python `s.startswith(pre)`. -/
def pyStartsWith (s pre : String) : Bool := listLeadsWith pre.data s.data

/-- pyInStrAux scans for a contiguous occurrence of `needle`. -/
def pyInStrAux (needle : List Char) : List Char → Bool
  | [] => needle.isEmpty
  | c :: rest => listLeadsWith needle (c :: rest) || pyInStrAux needle rest

/-- pyInStr models Python substring containment `needle in hay`. -/
def pyInStr (needle hay : String) : Bool := pyInStrAux needle.data hay.data

/-- pyCharIsSpace covers the ASCII whitespace Python `str.strip` removes
(the card data uses only these). -/
def pyCharIsSpace (c : Char) : Bool :=
  c = ' ' || c = '\t' || c = '\n' || c = '\r'

def dropLeadingSpaces : List Char → List Char
  | [] => []
  | c :: rest => if pyCharIsSpace c then dropLeadingSpaces rest else c :: rest

/-- pyTrim models Python `s.strip()`. -/
def pyTrim (s : String) : String :=
  ⟨dropLeadingSpaces (dropLeadingSpaces s.data.reverse).reverse⟩

def pyCharLower (c : Char) : Char :=
  if 'A' ≤ c && c ≤ 'Z' then Char.ofNat (c.toNat + 32) else c

/-- pyLower models Python `s.lower()` (ASCII letters). -/
def pyLower (s : String) : String := ⟨s.data.map pyCharLower⟩

/-- pySplitAux splits on a nonempty separator, left to right and
non-overlapping; the fuel is the input length (one char is consumed per
step). -/
def pySplitAux (sep : List Char) : Nat → List Char → List Char → List (List Char)
  | _, [], acc => [acc.reverse]
  | 0, cs, acc => [acc.reverse ++ cs]
  | fuel + 1, c :: rest, acc =>
    if listLeadsWith sep (c :: rest) then
      acc.reverse :: pySplitAux sep fuel (rest.drop (sep.length - 1)) []
    else pySplitAux sep fuel rest (c :: acc)

/-- pySplit models Python `s.split(sep)` for a nonempty separator. -/
def pySplit (s sep : String) : List String :=
  if sep = "" then [s]
  else (pySplitAux sep.data s.data.length s.data []).map (⟨·⟩)

/-- pyReplaceAux replaces non-overlapping occurrences left to right. -/
def pyReplaceAux (old new : List Char) : Nat → List Char → List Char
  | _, [] => []
  | 0, cs => cs
  | fuel + 1, c :: rest =>
    if !old.isEmpty && listLeadsWith old (c :: rest) then
      new ++ pyReplaceAux old new fuel (rest.drop (old.length - 1))
    else c :: pyReplaceAux old new fuel rest

/-- pyReplace models Python `s.replace(old, new)` for nonempty `old`. -/
def pyReplace (s old new : String) : String :=
  ⟨pyReplaceAux old.data new.data s.data.length s.data⟩

def charDigit (c : Char) : Option Nat :=
  if '0' ≤ c && c ≤ '9' then some (c.toNat - 48) else none

/-- pyNatParse parses a nonempty all-digit string. -/
def pyNatParse (cs : List Char) : Option Nat :=
  if cs.isEmpty then none
  else cs.foldl
    (fun acc c =>
      match acc, charDigit c with
      | some n, some d => some (n * 10 + d)
      | _, _ => none)
    (some 0)

/-- pyIntParse models Python `int(s)` on an optionally signed digit
string (the only shapes the effect tags and tokens use); anything else
raises in Python and is `none` here. -/
def pyIntParse : List Char → Option Int
  | '-' :: rest => (pyNatParse rest).map (fun n => -(n : Int))
  | '+' :: rest => (pyNatParse rest).map Int.ofNat
  | cs => (pyNatParse cs).map Int.ofNat

/-- natToStrAux emits decimal digits (fuel bounds the division chain). -/
def natToStrAux : Nat → Nat → List Char
  | 0, _ => []
  | fuel + 1, n =>
    if n = 0 then []
    else natToStrAux fuel (n / 10) ++ [Char.ofNat (48 + n % 10)]

/-- natToStr models decimal rendering of a natural. -/
def natToStr (n : Nat) : String := if n = 0 then "0" else ⟨natToStrAux (n + 1) n⟩

/-- intToStr models Python `str(i)` / f-string rendering of an int. -/
def intToStr (i : Int) : String :=
  if i < 0 then "-" ++ natToStr i.natAbs else natToStr i.natAbs

/-! ## Resource keys

`scarecrovv/constants.py` is imported by `engine/setup.py` and
`io/load_cards.py` (`from scarecrovv.constants import RES`) but the file
itself is not in the sources provided. -/

/-- Modelled from the spec: `constants.RES`, the module missing from the
sources, lists the six resource kinds in the fixed priority order
"plasma, ash, shards, nut, berry, mushroom" (spec §4.1); the order is
corroborated by the `_RES_KEYS` tuples duplicated in `model/player.py`
and `model/card.py`. -/
def RES : List String := ["plasma", "ash", "shards", "nut", "berry", "mushroom"]

/-! ## Data model (model/card.py, model/player.py, config.py) -/

/-- Card mirrors the `Card` dataclass of `model/card.py` (the CSV loader
and heuristic-property layer live separately). -/
structure Card where
  id : String
  name : String
  buy_cost_plasma : Int := 2
  play_cost : Dict String Int := []
  type_ : String := "None"
  domain : String := "None"
  mat_points : Int := 0
  can_play_on_mat : Bool := true
  effect : String := ""
  deriving Repr, DecidableEq

/-- ChoiceCost models the cost dicts passed around `engine/actions.py`:
ordinary resource entries plus the special `__choice_one_of__` entry
(a list of resource keys of which exactly one unit must be paid).
The source keeps both in one dict and skips the special key when
iterating; the embedding keeps them in separate fields, `choiceOneOf = []`
standing for an absent special key. -/
structure ChoiceCost where
  fixed : Dict String Int := []
  choiceOneOf : List String := []
  deriving Repr, DecidableEq

/-- Config mirrors the `Config` dataclass of `config.py` (including its
class-level attributes `vp_cost_1`, `vp_cost_3`, `vp1_play_cost`,
`vp3_play_cost`). Attributes the engine reads through `getattr` with a
default and that `Config` never defines (`workers_per_round`,
`late_round_threshold`, `big_hand_threshold`, `initiative_bias`,
`actions_per_turn`, `turn_cap`, `vp1_play_cost_options`) are embedded as
the getattr defaults at the call sites. -/
structure Config where
  seed : Int := 42
  players : Nat := 3
  victory_vp : Int := 24
  copies_per_unique : Nat := 2
  hand_size : Int := 5
  pool_buy_cost_override : Option Int := some 1
  vp_cost_1 : Int := 1
  vp_cost_3 : Int := 2
  vp1_play_cost : ChoiceCost :=
    { fixed := [("plasma", 1), ("shards", 1)],
      choiceOneOf := ["plasma", "shards", "ash", "nut", "berry", "mushroom"] }
  vp3_play_cost : ChoiceCost :=
    { fixed := [("plasma", 1), ("ash", 1), ("shards", 1),
                ("nut", 1), ("berry", 1), ("mushroom", 1)] }
  mcts : Int := 1
  rollouts : Int := 8
  horizon : Int := 3
  explore : ℚ := 1 / 10
  curiosity : ℚ := 1 / 2
  mcts_actions_cap : Int := 0
  mcts_time_ms : Int := 0
  start_offset : Int := 0
  vp_urgency_turn : Int := 10
  vp_weight : ℚ := 35 / 100
  late_game_turn : Int := 150
  progress_every : Int := 5
  deriving Repr, DecidableEq

/-- PlayerState mirrors the `PlayerState` dataclass of `model/player.py`. -/
structure PlayerState where
  id : Nat
  deck : List String := []
  hand : List String := []
  discard : List String := []
  mat : Dict Int String := []
  workers : Int := 2
  vp : Int := 0
  resources : Dict String Int :=
    [("plasma", 0), ("ash", 0), ("shards", 0), ("nut", 0), ("berry", 0), ("mushroom", 0)]
  first_play_turn : Dict String Int := []
  slot2_type : Option String := none
  visits : Dict String Int := []
  deriving Repr, DecidableEq

/-! ## RNG stream (external collaborator `random.Random`) -/

/-- Rng models the single per-game PRNG stream. Modelled from the spec:
"RNG stream is single global sequence per game instance; the same seed must
reproduce the same full game" — the stdlib Mersenne Twister is outside the
repository, so any deterministic stream seeded from `cfg.seed` and consumed
in the source's call order is a faithful model; an LCG is used. -/
structure Rng where
  state : Nat
  deriving Repr, DecidableEq

namespace Rng

def init (seed : Int) : Rng := ⟨(seed.emod 2147483648).toNat⟩

def next (r : Rng) : Nat × Rng :=
  let s := (1103515245 * r.state + 12345) % 2147483648
  (s, ⟨s⟩)

/-- randBelow models `Random._randbelow(n)`: a value in `[0, n)`. -/
def randBelow (r : Rng) (n : Nat) : Nat × Rng :=
  let (x, r1) := r.next
  (if n = 0 then 0 else x % n, r1)

/-- randFloat models `Random.random()`: a rational in `[0, 1)`. -/
def randFloat (r : Rng) : ℚ × Rng :=
  let (x, r1) := r.next
  ((x : ℚ) / 2147483648, r1)

def swapAt {α : Type} (xs : List α) (i j : Nat) : List α :=
  match xs.get? i, xs.get? j with
  | some a, some b => (xs.set i b).set j a
  | _, _ => xs

/-- shuffleAux runs the Fisher–Yates loop of `Random.shuffle` for indices
`i, i-1, ..., 1` (the accumulator carries the partially shuffled list). -/
def shuffleAux {α : Type} : List α → Rng → Nat → List α × Rng
  | xs, r, 0 => (xs, r)
  | xs, r, i + 1 =>
    let (j, r1) := r.randBelow (i + 2)
    shuffleAux (swapAt xs (i + 1) j) r1 i

/-- shuffle models `rng.shuffle(xs)` (in-place Fisher–Yates). -/
def shuffle {α : Type} (r : Rng) (xs : List α) : List α × Rng :=
  shuffleAux xs r (xs.length - 1)

/-- choice models `rng.choice(xs)` for nonempty `xs`
(`xs[randbelow(len(xs))]`; empty input raises in Python). -/
def choice {α : Type} [Inhabited α] (r : Rng) (xs : List α) : α × Rng :=
  let (j, r1) := r.randBelow xs.length
  (xs.getD j default, r1)

/-- randrange models `rng.randrange(n)`. -/
def randrange (r : Rng) (n : Nat) : Nat × Rng := r.randBelow n

end Rng

/-! ## Event log (utils/logging.py record dicts) -/

/-- Event models one record dict appended by `EventLog.emit`; one
constructor per emit site shape. `playCardEv` carries `none` for the
record without a "slot" key (active play). -/
inductive Event where
  | gameStart (seed : Int) (starter : Nat) (starterBot : String)
  | turnOrderSet (t : Int) (startPlayer : Nat) (order : List Nat)
  | startOfRoundEv (t : Int) (start : Nat) (order : List Nat)
  | endOfRoundEv (t : Int) (prevStart nextStart : Nat)
  | initiativeApplied (t : Int) (prevStart nextStart : Nat)
  | initiativeClaimed (t : Int) (pid : Nat)
  | fieldOccupancyCleared (t : Int)
  | reshuffleEv (p : Nat) (n : Nat)
  | passEv (p : Nat)
  | playVpEv (p : Nat) (vp bonus total : Int) (cost : ChoiceCost)
  | slot2Chosen (p : Nat) (type_ : Option String)
  | playCardEv (p : Nat) (cid name : String) (toMat : Bool) (slot : Option Int)
  | buyEv (p : Nat) (cid name : String) (src : String) (cost : Int)
  | buyVpEv (p : Nat) (vp cost : Int)
  | workerEv (p : Nat) (field : String)
  | onCompostGain (t : Int) (p : Nat) (cid : String) (grants : Dict String Int) (reason : String)
  | compostEv (t : Int) (p : Nat) (card : String) (reason : String)
  | globalTag (p : Nat) (k : String) (payload : Int)
  | globalTagBare (p : Nat) (k : String)
  | globalRider (p : Nat) (k : String) (ns : List Int)
  | globalRiderGain (p : Nat) (k res : String) (n : Int)
  | globalRiderPeek (p : Nat) (kept dumped : Option String)
  | exploreFlag (p : Nat)
  | winEv (p : Nat) (reason : String) (turns : Option Int)
  | gameEndVp (vps : List Int)
  deriving Repr, DecidableEq

/-! ## Game state (model/game.py) -/

/-- GameState mirrors the `GameState` dataclass of `model/game.py`.
Occupancy values are `Option Int`: the field is typed `Dict[str, int]` in
the source but readers defensively allow a stored `None`
(`0 if occ_raw is None else int(occ_raw)`), which `none` models. -/
structure GameState where
  cfg : Config
  rng : Rng
  cards : Dict String Card := []
  supply : List String := []
  pool : List String := []
  pool_discard : List String := []
  players : List PlayerState := []
  turn : Int := 0
  current_player : Nat := 0
  field_capacity : Dict String Int := []
  field_occupancy : Dict String (Option Int) := []
  forage_yield_bonus_this_round : Int := 0
  hand_size_delta_next_round : Dict Nat Int := []
  blight_compost_at_end : Bool := false
  first_to_three_domains_claimed : Bool := false
  start_player : Nat := 0
  turn_order : List Nat := []
  initiative_pid : Option Nat := none
  log : List Event := []
  deriving Repr, DecidableEq

instance : Inhabited PlayerState := ⟨{ id := 0 }⟩

namespace GameState

/-- emit mirrors `EventLog.emit` / `GameState.emit` (append a record). -/
def emit (g : GameState) (e : Event) : GameState := { g with log := g.log ++ [e] }

/-- player reads `g.players[pid]` (call sites only use in-range indices;
an out-of-range read, an IndexError in Python, returns the default). -/
def player (g : GameState) (pid : Nat) : PlayerState := g.players.getD pid default

/-- setPlayer writes back the (mutated) player object at seat `pid`. -/
def setPlayer (g : GameState) (pid : Nat) (p : PlayerState) : GameState :=
  { g with players := g.players.set pid p }

/-- set_turn_order_for_round mirrors `GameState.set_turn_order_for_round`. -/
def set_turn_order_for_round (g : GameState) : GameState :=
  let n := g.players.length
  if n = 0 then { g with turn_order := [] }
  else
    let s := g.start_player % n
    let order := List.range' s (n - s) ++ List.range s
    let g := { g with turn_order := order, current_player := order.getD 0 0 }
    g.emit (.turnOrderSet g.turn g.start_player order)

/-- next_round_start_from_initiative mirrors the method of the same name. -/
def next_round_start_from_initiative (g : GameState) : GameState :=
  let prev := g.start_player
  let g :=
    match g.initiative_pid with
    | some pid => { g with start_player := pid, initiative_pid := none }
    | none => g
  g.emit (.initiativeApplied g.turn prev g.start_player)

/-- clear_round_occupancy mirrors the method of the same name. -/
def clear_round_occupancy (g : GameState) : GameState :=
  let g :=
    if g.field_capacity.isEmpty then g
    else { g with field_occupancy := g.field_capacity.keys.map (fun k => (k, some 0)) }
  g.emit (.fieldOccupancyCleared g.turn)

/-- claim_initiative mirrors the method of the same name (the Bool result
is ignored by its caller `_act_worker`). -/
def claim_initiative (g : GameState) (pid : Nat) : GameState :=
  match g.initiative_pid with
  | some _ => g
  | none =>
    let g := { g with initiative_pid := some pid }
    g.emit (.initiativeClaimed g.turn pid)

end GameState

/-! ## Deck / draw / discount / compost helpers (engine/setup.py) -/

/-- pyInt models `int(s)` under a `try/except` defaulting to 0. -/
def pyInt (s : String) : Int := (pyIntParse s.data).getD 0

/-- reshuffle_if_needed mirrors `setup.reshuffle_if_needed` (shuffle the
discard into a fresh deck when the deck is empty and the discard is not). -/
def reshuffle_if_needed (p : PlayerState) (rng : Rng) : PlayerState × Rng :=
  if p.deck.isEmpty && !p.discard.isEmpty then
    let (s, rng) := rng.shuffle p.discard
    ({ p with deck := s, discard := [] }, rng)
  else (p, rng)

/-- drawAux runs the body of `setup.draw`'s `for _ in range(n)` loop on
player `pid`'s seat (the deck is drawn from the end, `p.deck.pop()`). -/
def drawAux (g : GameState) (pid : Nat) : Nat → GameState
  | 0 => g
  | n + 1 =>
    let p := g.player pid
    let g :=
      if p.deck.isEmpty && !p.discard.isEmpty then
        g.emit (.reshuffleEv pid p.discard.length)
      else g
    let pr :=
      if p.deck.isEmpty then reshuffle_if_needed p g.rng else (p, g.rng)
    let p := pr.1
    let g := { g.setPlayer pid p with rng := pr.2 }
    if p.deck.isEmpty then g
    else
      let p := { p with deck := p.deck.dropLast,
                        hand := p.hand ++ [p.deck.getLastD ""] }
      drawAux (g.setPlayer pid p) pid n

/-- draw mirrors `setup.draw(g, p, n)` on seat `pid`. -/
def draw (g : GameState) (pid : Nat) (n : Nat) : GameState := drawAux g pid n

/-- draw_to_hand_size mirrors `setup.draw_to_hand_size`. -/
def draw_to_hand_size (g : GameState) (pid : Nat) (target : Int) : GameState :=
  let need := max 0 (target - (g.player pid).hand.length)
  if need > 0 then draw g pid need.toNat else g

/-- slot2_type mirrors `setup.slot2_type` (type of the card in mat slot 2). -/
def slot2_type (g : GameState) (p : PlayerState) : Option String :=
  match p.mat.get? 2 with
  | some cid =>
    match g.cards.get? cid with
    | some c => some c.type_
    | none => none
  | none => none

/-- total_discount_for_card mirrors `setup.total_discount_for_card`:
slot-2 chosen-type match, slot-4 Critter, slot-5 Farm, slot-6 Wild, with
the total capped by `min(disc, 1)`. -/
def total_discount_for_card (g : GameState) (p : PlayerState) (c : Card) : Int :=
  let disc : Int := 0
  let disc := disc + (match slot2_type g p with
    | some s2 => if c.type_ = s2 then 1 else 0
    | none => 0)
  let disc := disc + (if p.mat.hasKey 4 && c.type_ = "Critter" then 1 else 0)
  let disc := disc + (if p.mat.hasKey 5 && c.type_ = "Farm" then 1 else 0)
  let disc := disc + (if p.mat.hasKey 6 && c.type_ = "Wild" then 1 else 0)
  min disc 1

/-- discountFirstRes runs the `for k in RES` loop of `setup.discounted_cost`:
decrement the first key with a positive entry, delete it when it drops to
zero or below, then break. -/
def discountFirstRes : List String → Dict String Int → Dict String Int
  | [], cost => cost
  | k :: ks, cost =>
    if dGetI cost k > 0 then
      let cost := cost.set k (dGetI cost k - 1)
      if dGetI cost k ≤ 0 then cost.del k else cost
    else discountFirstRes ks cost

/-- discounted_cost mirrors `setup.discounted_cost`. -/
def discounted_cost (c : Card) (disc : Int) : Dict String Int :=
  if disc ≤ 0 then c.play_cost else discountFirstRes RES c.play_cost

/-- effect_tags mirrors `setup.effect_tags` (semicolon-separated tags,
trimmed, empties dropped). -/
def effect_tags (effectStr : String) : List String :=
  if effectStr = "" then []
  else ((pySplit effectStr ";").map pyTrim).filter (fun t => t ≠ "")

/-- compost_gains_for mirrors `setup.compost_gains_for` (recognizes
`if_composted_gain:<res>:<amt>` and `on_compost:<res>:<amt>`, keeping only
valid RES keys with positive amounts). -/
def compost_gains_for (card : Card) : Dict String Int :=
  (effect_tags card.effect).foldl
    (fun gains tag =>
      if pyStartsWith tag "if_composted_gain:" || pyStartsWith tag "on_compost:" then
        let parts := pySplit tag ":"
        if parts.length ≥ 3 then
          let res := pyLower (pyTrim (parts.getD 1 ""))
          let amt := pyInt (pyTrim (parts.getD 2 ""))
          if RES.contains res && amt > 0 then
            gains.set res (dGetI gains res + amt)
          else gains
        else gains
      else gains)
    []

/-- grant_resources mirrors `setup.grant_resources`. -/
def grant_resources (p : PlayerState) (grants : Dict String Int) : PlayerState :=
  grants.foldl
    (fun p kv => { p with resources := p.resources.set kv.1 (dGetI p.resources kv.1 + kv.2) })
    p

/-- compost_from_hand mirrors `setup.compost_from_hand` (the popped token
is returned to Python callers but every caller ignores it). -/
def compost_from_hand (g : GameState) (pid : Nat) (index : Nat) (reason : String) : GameState :=
  let p := g.player pid
  if index < p.hand.length then
    let tok := p.hand.getD index ""
    let p := { p with hand := p.hand.eraseIdx index }
    let g := g.setPlayer pid p
    let g :=
      match g.cards.get? tok with
      | some c =>
        let gains := compost_gains_for c
        if gains.isEmpty then g
        else
          let g := g.setPlayer pid (grant_resources p gains)
          g.emit (.onCompostGain g.turn pid c.id gains reason)
      | none => g
    g.emit (.compostEv g.turn pid tok reason)
  else g

/-! ## Action engine (engine/actions.py)

`actions.py` defines `_vp_play_cost`, `_can_pay_with_choice` and
`_pay_with_choice` twice; the later definitions (the `__choice_one_of__`
versions) shadow the earlier `__choice__` ones, so only the later ones are
embedded. -/

/-- Action mirrors `Action = Tuple[str, Optional[tuple]]` as a closed sum
of the five tuple shapes the engine constructs. Indices are `Int` so that
malformed or stale actions (negative or out-of-range indices) are
representable, as `apply_action` defends against them. -/
inductive Action where
  | play (i : Int) (toMat : Bool) (slot : Option Int)
  | buyPool (j : Int)
  | buyVp (v : Int)
  | worker (field : String)
  | passAct
  deriving Repr, DecidableEq

instance : Inhabited Action := ⟨.passAct⟩

/-- resTok builds the hand-token string for one unit of a resource. -/
def resTok (key : String) : String := "RES:" ++ key

/-- pyIntOpt models `int(s)` under try/except with the caller's default. -/
def pyIntOpt (s : String) : Option Int := pyIntParse s.data

def _count_res_tokens_in_hand (p : PlayerState) (key : String) : Nat :=
  p.hand.countP (fun t => t = resTok key)

/-- removeTokAux scans the hand left to right deleting up to `n` copies of
`tok`, returning how many were removed. -/
def removeTokAux : List String → String → Nat → Nat × List String
  | ts, _, 0 => (0, ts)
  | [], _, _ => (0, [])
  | t :: rest, tok, n + 1 =>
    if t = tok then
      ((removeTokAux rest tok n).1 + 1, (removeTokAux rest tok n).2)
    else
      ((removeTokAux rest tok (n + 1)).1, t :: (removeTokAux rest tok (n + 1)).2)

/-- Mirrors `_remove_res_tokens_from_hand` (caller's `n` may be any int). -/
def _remove_res_tokens_from_hand (p : PlayerState) (key : String) (n : Int) :
    Nat × PlayerState :=
  if n ≤ 0 then (0, p)
  else
    let rh := removeTokAux p.hand (resTok key) n.toNat
    (rh.1, { p with hand := rh.2 })

/-- Mirrors `_available_amount`: pool counter plus hand tokens. -/
def _available_amount (p : PlayerState) (key : String) : Int :=
  dGetI p.resources key + _count_res_tokens_in_hand p key

/-- Mirrors `_can_pay_mixed` on the ordinary entries of a cost dict (the
`__choice_one_of__` skip is the `ChoiceCost` field split). -/
def _can_pay_mixed (p : PlayerState) (cost : Dict String Int) : Bool :=
  cost.all (fun kv => _available_amount p kv.1 ≥ kv.2)

/-- payMixedStep is the loop body of `_pay_mixed` for one cost entry
(both `prefer_tokens_first` branches). -/
def payMixedStep (preferTokensFirst : Bool) (p : PlayerState) (kv : String × Int) :
    PlayerState :=
  let k := kv.1
  let need := kv.2
  if need ≤ 0 then p
  else if preferTokensFirst then
    let ur := _remove_res_tokens_from_hand p k need
    let usedTok := ur.1
    let p := ur.2
    let remain := need - usedTok
    if remain > 0 then
      { p with resources := p.resources.set k (dGetI p.resources k - remain) }
    else p
  else
    let poolPay := min (dGetI p.resources k) need
    let p := { p with resources := p.resources.set k (dGetI p.resources k - poolPay) }
    let remain := need - poolPay
    if remain > 0 then (_remove_res_tokens_from_hand p k remain).2 else p

/-- Mirrors `_pay_mixed` (every call site passes
`prefer_tokens_first=True`). -/
def _pay_mixed (p : PlayerState) (cost : Dict String Int)
    (preferTokensFirst : Bool) : PlayerState :=
  cost.foldl (payMixedStep preferTokensFirst) p

/-- Mirrors `_vp_play_cost` (the later, `__choice_one_of__` version);
`cfg.vp1_play_cost` / `cfg.vp3_play_cost` exist on `Config`, so the
`getattr` defaults are never taken. -/
def _vp_play_cost (g : GameState) (vpValue : Int) : ChoiceCost :=
  if vpValue = 1 then g.cfg.vp1_play_cost
  else if vpValue = 3 then g.cfg.vp3_play_cost
  else {}

/-- Mirrors `_can_pay_with_choice` (fixed part payable and, when a choice
set is present, at least one listed resource with availability ≥ 1). -/
def _can_pay_with_choice (p : PlayerState) (cost : ChoiceCost) : Bool :=
  _can_pay_mixed p cost.fixed &&
    (cost.choiceOneOf.isEmpty ||
      cost.choiceOneOf.any (fun rk => _available_amount p rk ≥ 1))

/-- pyTupLt is Python tuple comparison `<` on int pairs (lexicographic). -/
def pyTupLt (a b : Int × Int) : Bool :=
  a.1 < b.1 || (a.1 = b.1 && a.2 < b.2)

/-- chooseChoiceStep is the loop body of `_choose_choice_key_to_pay` for
one candidate key. -/
def chooseChoiceStep (p : PlayerState) (best : Option ((Int × Int) × String))
    (rk : String) : Option ((Int × Int) × String) :=
  let tok := _count_res_tokens_in_hand p rk
  let avail := _available_amount p rk
  if avail < 1 then best
  else
    let key : Int × Int := (-(tok : Int), -avail)
    match best with
    | none => some (key, rk)
    | some (bk, brk) =>
      if pyTupLt key bk then some (key, rk) else some (bk, brk)

/-- Mirrors `_choose_choice_key_to_pay`: among choices with availability
≥ 1, pick the one maximizing (hand-token count, total availability) --
the source minimizes the negated pair with a strict `<`, so the first
best is kept on ties. -/
def _choose_choice_key_to_pay (p : PlayerState) (choices : List String) : Option String :=
  (choices.foldl (chooseChoiceStep p) none).map Prod.snd

/-- Mirrors `_pay_with_choice`: pays the fixed entries unconditionally,
then one unit of a chosen key; returns `false` (with the fixed part
already paid) when no choice key is available. -/
def _pay_with_choice (p : PlayerState) (cost : ChoiceCost)
    (preferTokensFirst : Bool) : PlayerState × Bool :=
  let p := _pay_mixed p cost.fixed preferTokensFirst
  if cost.choiceOneOf.isEmpty then (p, true)
  else
    match _choose_choice_key_to_pay p cost.choiceOneOf with
    | none => (p, false)
    | some rk =>
      if preferTokensFirst then
        let ur := _remove_res_tokens_from_hand p rk 1
        let used := ur.1
        let p := ur.2
        let p :=
          if used = 0 then
            { p with resources := p.resources.set rk (dGetI p.resources rk - 1) }
          else p
        (p, true)
      else
        let p :=
          if dGetI p.resources rk > 0 then
            { p with resources := p.resources.set rk (dGetI p.resources rk - 1) }
          else (_remove_res_tokens_from_hand p rk 1).2
        (p, true)

/-- Mirrors `_affordable_now` (discounted cost payable from counters plus
hand tokens). -/
def _affordable_now (g : GameState) (pid : Nat) (c : Card) : Bool :=
  let p := g.player pid
  _can_pay_mixed p (discounted_cost c (total_discount_for_card g p c))

/-- Mirrors `_legal_buy_vp` (only the VP:1 and VP:3 piles). -/
def _legal_buy_vp (g : GameState) (pid : Nat) : List Action :=
  let p := g.player pid
  (if _available_amount p "plasma" ≥ g.cfg.vp_cost_1 then [.buyVp 1] else []) ++
  (if _available_amount p "plasma" ≥ g.cfg.vp_cost_3 then [.buyVp 3] else [])

/-- Mirrors `legal_actions`: hand plays (VP tokens need their play cost;
library cards need affordability; mat placement once per open slot), pool
buys, VP-pile buys, worker placements under capacity, then `pass`. -/
def legal_actions (g : GameState) (pid : Nat) : List Action :=
  let p := g.player pid
  let playActs := (List.range p.hand.length).flatMap (fun i =>
    let tok := p.hand.getD i ""
    if pyStartsWith tok "VP:" then
      let vpVal := (pyIntOpt ((pySplit tok ":").getD 1 "")).getD 1
      if _can_pay_with_choice p (_vp_play_cost g vpVal) then
        [.play (i : Int) false none]
      else []
    else
      match g.cards.get? tok with
      | none => []
      | some c =>
        (if _affordable_now g pid c then [.play (i : Int) false none] else []) ++
        (if c.can_play_on_mat && _affordable_now g pid c then
          ((List.range' 1 6).filter (fun s => !p.mat.hasKey (s : Int))).map
            (fun s => .play (i : Int) true (some (s : Int)))
        else []))
  let poolActs := (List.range g.pool.length).flatMap (fun j =>
    let cid := g.pool.getD j ""
    match g.cards.get? cid with
    | none => []
    | some c =>
      let cost :=
        match g.cfg.pool_buy_cost_override with
        | some v => v
        | none => c.buy_cost_plasma
      if _available_amount p "plasma" ≥ cost then [.buyPool (j : Int)] else [])
  let workerActs :=
    if p.workers > 0 then
      g.field_capacity.flatMap (fun kv =>
        let occRaw := (g.field_occupancy.get? kv.1).getD (some 0)
        let occ := occRaw.getD 0
        -- int(cap or 0) is the identity on ints (0 stays 0)
        if occ < kv.2 then [Action.worker kv.1] else [])
    else []
  playActs ++ poolActs ++ _legal_buy_vp g pid ++ workerActs ++ [.passAct]

/-! `_act_play` is embedded as a composition of named stages (VP-token
branch, library-card branch with its mat/active sub-branches, first-play
telemetry); their composition is exactly the source's control flow. -/

/-- vpPlayCase is the `VP:` branch of `_act_play` once the token is known:
affordability check, token removal, choice payment (re-inserting the
token at hand position 0 on failure), scoring with the slot-1 bonus, and
discard. -/
def vpPlayCase (g : GameState) (pid : Nat) (i : Nat) (tok : String) : GameState :=
  let p := g.player pid
  let vpVal := (pyIntOpt ((pySplit tok ":").getD 1 "")).getD 1
  let playCost := _vp_play_cost g vpVal
  if !(_can_pay_with_choice p playCost) then g
  else
    let p := { p with hand := p.hand.eraseIdx i }
    let pr := _pay_with_choice p playCost true
    if !pr.2 then g.setPlayer pid { pr.1 with hand := tok :: pr.1.hand }
    else
      let p := pr.1
      let bonus : Int := if p.mat.hasKey 1 then 2 else 0
      let p := { p with vp := p.vp + vpVal + bonus }
      let p := { p with discard := p.discard ++ [tok] }
      let g := g.setPlayer pid p
      g.emit (.playVpEv pid vpVal bonus p.vp playCost)

/-- libMatCase is the to-mat sub-branch of `_act_play`'s library branch,
entered after the card was removed from hand and paid for: slot
occupation, slot-2/slot-3 side effects, the discard append ("keeps
cycling"), and the play_card event. -/
def libMatCase (g : GameState) (pid : Nat) (c : Card) (s : Int) : GameState :=
  let p := g.player pid
  let p := { p with mat := p.mat.set s c.id }
  let g := g.setPlayer pid p
  let g :=
    if s = 2 then
      let p := { p with slot2_type := some c.type_ }
      (g.setPlayer pid p).emit (.slot2Chosen pid p.slot2_type)
    else if s = 3 then
      if !(g.player pid).hand.isEmpty then compost_from_hand g pid 0 "slot3"
      else g
    else g
  let p := g.player pid
  let g := g.setPlayer pid { p with discard := p.discard ++ [c.id] }
  g.emit (.playCardEv pid c.id c.name true (some s))

/-- libActiveCase is the one-shot sub-branch of the library branch. -/
def libActiveCase (g : GameState) (pid : Nat) (c : Card) : GameState :=
  let p := g.player pid
  let g := g.setPlayer pid { p with discard := p.discard ++ [c.id] }
  g.emit (.playCardEv pid c.id c.name false none)

/-- libTelemetry is the first-play-turn record at the end of the library
branch. -/
def libTelemetry (g : GameState) (pid : Nat) (c : Card) : GameState :=
  let p := g.player pid
  if p.first_play_turn.hasKey c.id then g
  else g.setPlayer pid { p with first_play_turn := p.first_play_turn.set c.id g.turn }

/-- libPlayCase is the library-card branch of `_act_play`: renewed
(discounted, mixed) affordability check, card removal, payment, then the
mat or active sub-branch and telemetry. -/
def libPlayCase (g : GameState) (pid : Nat) (i : Nat) (c : Card) (toMat : Bool)
    (slot : Option Int) : GameState :=
  let p := g.player pid
  let disc := total_discount_for_card g p c
  let eff := discounted_cost c disc
  if !(_can_pay_mixed p eff) then g
  else
    let p := { p with hand := p.hand.eraseIdx i }
    let p := _pay_mixed p eff true
    let g := g.setPlayer pid p
    let matBranch :=
      toMat && c.can_play_on_mat &&
        (match slot with
         | some s => s ≠ 0 && !p.mat.hasKey s
         | none => false)
    let g := if matBranch then libMatCase g pid c (slot.getD 0) else libActiveCase g pid c
    libTelemetry g pid c

/-- Mirrors `_act_play`. The stale-action guards (index range, renewed
affordability) return with the state untouched; the re-reads of the
player object inside the stages reflect the Python aliasing of `p` with
`g.players[pid]`. -/
def _act_play (g : GameState) (pid : Nat) (handIdx : Int) (toMat : Bool)
    (slot : Option Int) : GameState :=
  let p := g.player pid
  if handIdx < 0 || handIdx ≥ (p.hand.length : Int) then g
  else
    let i := handIdx.toNat
    let tok := p.hand.getD i ""
    if pyStartsWith tok "VP:" then vpPlayCase g pid i tok
    else
      match g.cards.get? tok with
      | none => g
      | some c => libPlayCase g pid i c toMat slot

/-- Mirrors `_act_buy_pool`. The final
`from scarecrovv.engine.setup import refill_pool` raises ImportError —
`engine/setup.py` defines no
`refill_pool` (see `setupModuleTopLevelDefs`) — and the bare `except`
swallows it, so the pool is never backfilled. -/
def _act_buy_pool (g : GameState) (pid : Nat) (poolIdx : Int) : GameState :=
  if poolIdx < 0 || poolIdx ≥ (g.pool.length : Int) then g
  else
    let j := poolIdx.toNat
    let cid := g.pool.getD j ""
    match g.cards.get? cid with
    | none => g
    | some c =>
      let cost :=
        match g.cfg.pool_buy_cost_override with
        | some v => v
        | none => c.buy_cost_plasma
      let p := g.player pid
      if _available_amount p "plasma" < cost then g
      else
        let p := _pay_mixed p [("plasma", cost)] true
        let p := { p with discard := p.discard ++ [cid] }
        let g := g.setPlayer pid p
        let g := { g with pool := g.pool.eraseIdx j }
        g.emit (.buyEv pid cid c.name "pool" cost)

/-- Mirrors `_act_buy_vp` (only denominations 1 and 3). -/
def _act_buy_vp (g : GameState) (pid : Nat) (value : Int) : GameState :=
  if value ≠ 1 && value ≠ 3 then g
  else
    let p := g.player pid
    let buyCost := if value = 1 then g.cfg.vp_cost_1 else g.cfg.vp_cost_3
    if _available_amount p "plasma" < buyCost then g
    else
      let p := _pay_mixed p [("plasma", buyCost)] true
      let p := { p with discard := p.discard ++ ["VP:" ++ intToStr value] }
      let g := g.setPlayer pid p
      g.emit (.buyVpEv pid value buyCost)

/-- workerFieldEffect is the per-field effect chain inside `_act_worker`
(resource fields, forage with the round bonus, rookery draw, compost,
initiative; an unknown field has no effect). -/
def workerFieldEffect (g : GameState) (pid : Nat) (field : String) : GameState :=
  let p := g.player pid
  if field = "plasma" then
    g.setPlayer pid
      { p with resources := p.resources.set "plasma" (dGetI p.resources "plasma" + 1) }
  else if field = "ash" then
    g.setPlayer pid
      { p with resources := p.resources.set "ash" (dGetI p.resources "ash" + 1) }
  else if field = "shards" then
    g.setPlayer pid
      { p with resources := p.resources.set "shards" (dGetI p.resources "shards" + 1) }
  else if field = "forage" then
    let base := 1 + g.forage_yield_bonus_this_round
    g.setPlayer pid
      { p with resources := p.resources.set "nut" (dGetI p.resources "nut" + base) }
  else if field = "rookery" then draw g pid 1
  else if field = "compost" then
    if !p.hand.isEmpty then compost_from_hand g pid 0 "compost_field" else g
  else if field = "initiative" then g.claim_initiative pid
  else g

/-- Mirrors `_act_worker` (capacity check, per-field effect, then worker
decrement / occupancy increment / visit telemetry / log). -/
def _act_worker (g : GameState) (pid : Nat) (field : String) : GameState :=
  let p := g.player pid
  if p.workers ≤ 0 then g
  else
    let occRaw := (g.field_occupancy.get? field).getD (some 0)
    let cap := g.field_capacity.getD field 0
    let occ := occRaw.getD 0
    -- int(cap or 0) is the identity on ints
    if occ ≥ cap then g
    else
      let g := workerFieldEffect g pid field
      let p := g.player pid
      let g := g.setPlayer pid
        { p with workers := p.workers - 1,
                 visits := p.visits.set field (dGetI p.visits field + 1) }
      let g := { g with field_occupancy := g.field_occupancy.set field (some (occ + 1)) }
      g.emit (.workerEv pid field)

/-- Mirrors `apply_action` (dispatch on the action kind). -/
def apply_action (g : GameState) (pid : Nat) (a : Action) : GameState :=
  match a with
  | .play i toMat slot => _act_play g pid i toMat slot
  | .buyPool j => _act_buy_pool g pid j
  | .buyVp v => _act_buy_vp g pid v
  | .worker field => _act_worker g pid field
  | .passAct => g.emit (.passEv pid)

/-! ## Global effect tags (engine/effects_globals.py)

Only `apply_global_effects` and `_peek2_keep1` are embedded: the second
half of the file (`resolve_worker_field` and its helpers) belongs to an
older engine generation and is not imported by anything in the modular
engine (`actions._act_worker` implements the fields inline). -/

/-- Mirrors `_peek2_keep1`: the body is a stub whose deck logic is only a
comment in the source; it just logs `kept=None, dumped=None`. -/
def _peek2_keep1 (g : GameState) (pid : Nat) : GameState :=
  g.emit (.globalRiderPeek pid none none)

/-- Mirrors `apply_global_effects`. The global tags
(`hand_size_delta_next_round`, `forage_yield_bonus_this_round`,
`end_round_all_compost`, `first_to_play_three_domains`) are ONLY logged:
each branch carries a source comment such as "store on g for next round
(e.g., g.hand_delta_next_round[pid] += delta)" but performs no store.
Rider tags mutate the caster. `int(parts[1])` is uncaught in the source
(it would raise on malformed digits); the embedding defaults to 0, a
difference only reachable on tags no card uses. -/
def apply_global_effects (g : GameState) (pid : Nat) (effect : String) : GameState :=
  if effect = "" then g
  else
    (pySplit effect ";").foldl
      (fun g raw =>
        let tag := pyTrim raw
        if tag = "" then g
        else
          let parts := pySplit tag ":"
          let key := parts.getD 0 ""
          if key = "hand_size_delta_next_round" then
            let delta := pyInt (parts.getD 1 "")
            g.emit (.globalTag pid key delta)
          else if key = "forage_yield_bonus_this_round" then
            let bonus := pyInt (pyReplace (parts.getD 1 "") "+" "")
            g.emit (.globalTag pid key bonus)
          else if key = "end_round_all_compost" then
            g.emit (.globalTagBare pid key)
          else if key = "first_to_play_three_domains" then
            let vp := pyInt (pyReplace (pyReplace (parts.getD 1 "") "+" "") "vp" "")
            g.emit (.globalTag pid key vp)
          else if key = "self_plasma" then
            let n := pyInt (parts.getD 1 "")
            let p := g.player pid
            let g := g.setPlayer pid
              { p with resources := p.resources.set "plasma" (dGetI p.resources "plasma" + n) }
            g.emit (.globalRider pid key [n])
          else if key = "self_gain" then
            let res := parts.getD 1 ""
            let n := pyInt (parts.getD 2 "")
            let p := g.player pid
            let g := g.setPlayer pid
              { p with resources := p.resources.set res (dGetI p.resources res + n) }
            g.emit (.globalRiderGain pid key res n)
          else if key = "self_vp" then
            let n := pyInt (parts.getD 1 "")
            let p := { g.player pid with vp := (g.player pid).vp + n }
            let g := g.setPlayer pid p
            g.emit (.globalRider pid key [n, p.vp])
          else if key = "self_peek2_keep1" then
            _peek2_keep1 g pid
          else g)
      g

/-! ## Round controller (engine/rounds.py) -/

/-- Mirrors `rounds._normalize_field_occupancy`. -/
def _normalize_field_occupancy (g : GameState) : GameState :=
  { g with field_occupancy := g.field_capacity.keys.map (fun k => (k, some 0)) }

/-- sorPlayerStep is the body of `start_of_round`'s per-player loop:
reset workers, +1 plasma, draw up to `base_hand_size + pending delta`,
then zero the player's pending delta. -/
def sorPlayerStep (baseHandSize workersPerRound : Int) (g : GameState) (pid : Nat) :
    GameState :=
  let p := g.player pid
  let p := { p with workers := workersPerRound }
  let p := { p with resources := p.resources.set "plasma" (dGetI p.resources "plasma" + 1) }
  let g := g.setPlayer pid p
  let delta := g.hand_size_delta_next_round.getD p.id 0
  let target := baseHandSize + delta
  let g := draw_to_hand_size g pid target
  { g with hand_size_delta_next_round := g.hand_size_delta_next_round.set p.id 0 }

/-- Mirrors `rounds.start_of_round`. The `hasattr(g, "accumulators")`
block is skipped: the modular `GameState` has no accumulators attribute.
`workers_per_round` and `hand_size` come from
`getattr(g.cfg, ..., default)`; `Config` defines only `hand_size`, so
`workers_per_round` is the literal default 2. -/
def start_of_round (g : GameState) : GameState :=
  let g := g.set_turn_order_for_round
  let g := _normalize_field_occupancy g
  let baseHandSize := g.cfg.hand_size
  let workersPerRound : Int := 2
  let g := (List.range g.players.length).foldl
    (sorPlayerStep baseHandSize workersPerRound)
    g
  let g := g.clear_round_occupancy
  g.emit (.startOfRoundEv g.turn g.start_player g.turn_order)

/-- Mirrors `rounds.end_of_round` (initiative hand-off, hand discard,
round-modifier resets — including zeroing every player's
`hand_size_delta_next_round` — occupancy reset, then `turn += 1`). -/
def end_of_round (g : GameState) : GameState :=
  let prev := g.start_player
  let g := g.next_round_start_from_initiative
  let g := (List.range g.players.length).foldl
    (fun g pid =>
      let p := g.player pid
      if p.hand.isEmpty then g
      else g.setPlayer pid { p with discard := p.discard ++ p.hand, hand := [] })
    g
  let g := { g with forage_yield_bonus_this_round := 0, blight_compost_at_end := false }
  let g := (List.range g.players.length).foldl
    (fun g pid =>
      { g with hand_size_delta_next_round :=
          g.hand_size_delta_next_round.set (g.player pid).id 0 })
    g
  let g := g.clear_round_occupancy
  let g := _normalize_field_occupancy g
  let g := { g with turn := g.turn + 1 }
  g.emit (.endOfRoundEv g.turn prev g.start_player)

/-! ## Game setup (engine/setup.py, `setup`) -/

/-- popPoolAux models the list comprehension
`[supply.pop() for _ in range(k)]` (pops from the end of the supply). -/
def popPoolAux : List String → Nat → List String × List String
  | supply, 0 => ([], supply)
  | supply, k + 1 =>
    let x := supply.getLastD ""
    let supply := supply.dropLast
    let (rest, supply) := popPoolAux supply k
    (x :: rest, supply)

/-- mkPlayers builds the per-seat starting decks (6 plasma tokens, 4 VP:1
tokens, shuffled) in seat order, threading the shared RNG. -/
def mkPlayers (n : Nat) (rng : Rng) : List PlayerState × Rng :=
  (List.range n).foldl
    (fun acc pid =>
      let (players, rng) := acc
      let deck := List.replicate 6 "RES:plasma" ++ List.replicate 4 "VP:1"
      let (deck, rng) := rng.shuffle deck
      (players ++ [{ id := pid, deck := deck, hand := [], discard := [] }], rng))
    ([], rng)

/-- Mirrors `setup.setup`. The card library (`load_cards` merged with
`load_globals`, both external CSV inputs) is a parameter `lib`. The
dynamically attached `g.domains_played_this_round` telemetry is read by
nothing in the engine and is not embedded. -/
def setup (lib : Dict String Card) (cfg : Config) : GameState :=
  let rng := Rng.init cfg.seed
  let supply := lib.flatMap
    (fun kv => if kv.2.type_ ≠ "Global" then List.replicate cfg.copies_per_unique kv.1 else [])
  let (supply, rng) := rng.shuffle supply
  let (pool, supply) := popPoolAux supply (min 10 supply.length)
  let (players, rng) := mkPlayers cfg.players rng
  let g : GameState :=
    { cfg := cfg, rng := rng, cards := lib, supply := supply, pool := pool, players := players }
  -- re-key occupancy over capacity keys (both dicts are empty at this point)
  let g := { g with field_occupancy :=
      (g.field_capacity.keys.map
        (fun k => (k, some (((g.field_occupancy.get? k).getD none).getD 0)))) }
  let g := (List.range cfg.players).foldl
    (fun g pid => draw_to_hand_size g pid cfg.hand_size) g
  let g := (List.range cfg.players).foldl
    (fun g pid =>
      let p := g.player pid
      g.setPlayer pid
        { p with resources := p.resources.set "plasma" (dGetI p.resources "plasma" + 1) })
    g
  let g :=
    if g.field_capacity.isEmpty then
      { g with field_capacity :=
          [("plasma", 1), ("ash", 1), ("shards", 1), ("forage", 1),
           ("rookery", 1), ("compost", 1), ("initiative", 1)] }
    else g
  let g :=
    if g.field_occupancy.isEmpty then
      { g with field_occupancy := g.field_capacity.keys.map (fun k => (k, some 0)) }
    else g
  let g :=
    if g.hand_size_delta_next_round.isEmpty then
      { g with hand_size_delta_next_round := g.players.map (fun p => (p.id, 0)) }
    else g
  let g := { g with forage_yield_bonus_this_round := 0,
                    blight_compost_at_end := false,
                    first_to_three_domains_claimed := false }
  let startOffset := (cfg.start_offset.emod cfg.players).toNat
  { g with start_player := startOffset, current_player := startOffset }

/-! ## Heuristic evaluation layer (engine/eval.py and the Card property
layer of model/card.py)

Python floats in the bot heuristics are embedded as exact rationals. The
greedy score is a `WithBot ℚ`: the only non-finite score the source
produces is `float("-inf")` in `_initiative_desirability`, embedded as
`⊥`. -/

instance : Inhabited Card := ⟨{ id := "", name := "" }⟩

/-- Mirrors the `Card.tags` property (lowercased type, unless "none"). -/
def Card.tags (c : Card) : List String :=
  let t := pyLower (pyTrim c.type_)
  if t ≠ "" && t ≠ "none" then [t] else []

/-- Mirrors the `Card.domains` property. -/
def Card.domains (c : Card) : List String :=
  let d := pyLower (pyTrim c.domain)
  if d ≠ "" && d ≠ "none" then [d] else []

/-- Mirrors `Card.text["persistent"]`. -/
def Card.textPersistent (c : Card) : Bool :=
  c.mat_points ≠ 0 || pyInStr "persistent" (pyLower c.effect) ||
    pyInStr "each round" (pyLower c.effect)

/-- Mirrors `eval._has_effect` (substring containment on the effect). -/
def _has_effect (card : Card) (token : String) : Bool := pyInStr token card.effect

/-- Mirrors `eval.hand_size`. -/
def hand_size (g : GameState) (pid : Nat) : Nat := (g.player pid).hand.length

/-- Mirrors `eval.mat_slots_free`: the mat is a plain dict so the
`hasattr` probes fail and `len(mat)` (number of occupied slots) against
the default capacity 6 is used. -/
def mat_slots_free (g : GameState) (pid : Nat) : Int :=
  max 0 (6 - ((g.player pid).mat.length : Int))

/-- Mirrors `eval.expected_vp_if_played_now` → `(vp_now, vp_future)`.
`g.carddb[card_id]` raises on unknown ids in Python; all call sites guard
membership first, so the default card is never reached. -/
def expected_vp_if_played_now (g : GameState) (cardId : String) (mode : String) : ℚ × ℚ :=
  let card := (g.cards.get? cardId).getD default
  let vpNow : ℚ := 0 + (if mode = "mat" then (card.mat_points : ℚ) else 0)
  let vpFuture : ℚ :=
    (if mode = "mat" && card.textPersistent then 0.6 else 0) +
    (if card.tags.any (fun t => t = "farm" || t = "critter" || t = "wild") then 0.2 else 0) +
    (if card.domains.any (fun d => d = "radioactive" || d = "slime" || d = "magic") then 0.2 else 0) +
    (if mode = "active" && _has_effect card "peek_supply_top_keep_or_skip_then_take_next"
      then 0.5 else 0)
  (vpNow, vpFuture)

/-- Mirrors `eval.resource_delta_if_played_now` (gains are stubbed empty
in the source, costs are the play cost for both modes). -/
def resource_delta_if_played_now (g : GameState) (cardId : String) : Int :=
  let card := (g.cards.get? cardId).getD default
  0 - card.play_cost.values.sum

/-- Mirrors `eval.mat_has_slot_discount_for` (the mat is a plain dict
without `has_slot_discount_for`, so the tag heuristic applies). -/
def mat_has_slot_discount_for (card : Card) : Bool :=
  card.tags.any (fun t => t = "critter" || t = "farm" || t = "wild")

/-- Mirrors the second (shadowing) `eval.synergy_bonus`. The mat
type/domain alignment terms read `getattr(mat, "types", lambda: [])()` on
a plain dict, which always yields the empty default, so they contribute
nothing. -/
def synergy_bonus (g : GameState) (pid : Nat) (cardId : String) (mode : String) : ℚ :=
  let card := (g.cards.get? cardId).getD default
  let _ := pid
  if mode = "mat" && mat_has_slot_discount_for card then 0.6 else 0

/-! ## Greedy bot (bots/greedy.py) -/

/-- Mirrors `greedy._parse_worker_field` on the typed action sum (only
worker actions carry a string payload head; the function is only queried
on worker actions). -/
def _parse_worker_field : Action → Option String
  | .worker f => some f
  | _ => none

/-- Mirrors `greedy._initiative_variants`. -/
def _initiative_variants (acts : List Action) : List Action :=
  acts.filter (fun a =>
    match a with
    | .worker f => f = "initiative"
    | _ => false)

/-- Mirrors `greedy._distance_to_first`. -/
def _distance_to_first (g : GameState) (pid : Nat) : ℚ :=
  let n := if g.players.length = 0 then 1 else g.players.length
  if g.turn_order.isEmpty || !(g.turn_order.contains pid) then 1
  else
    let pos := g.turn_order.indexOf pid
    ((pos % n : Nat) : ℚ) / ((max (n - 1) 1 : Nat) : ℚ)

/-- Mirrors `greedy._initiative_desirability`. `late_round_threshold` and
`initiative_bias` are `getattr` defaults (6 and 1.0): `Config` defines
neither. -/
def _initiative_desirability (g : GameState) (pid : Nat) (acts : List Action) : WithBot ℚ :=
  if (_initiative_variants acts).isEmpty then ⊥
  else
    let dist := _distance_to_first g pid
    let alreadyFirstPenalty : ℚ := if dist ≤ 1 / 1000000000 then 0.15 else 1
    let late := g.turn > 6
    let workers := (g.player pid).workers
    let posBonus := 1.5 * dist
    let lateBonus : ℚ := if late then 0.6 else 0.2
    let workerPenalty : ℚ := if workers ≤ 1 then 0.6 else 0
    let base := (posBonus + lateBonus - workerPenalty) * alreadyFirstPenalty
    let bias : ℚ := 1
    ↑(base * bias)

/-- sumValues totals a cost/need dict's values
(`sum(need.values())`). -/
def sumValues (d : Dict String Int) : Int := d.values.sum

/-- Mirrors the `shortfall` closure inside
`greedy._cheapest_need_to_play`. -/
def greedyShortfall (p : PlayerState) (cost : Dict String Int) : Dict String Int :=
  cost.foldl
    (fun need kv =>
      let tokCount := p.hand.countP (fun t => t = resTok kv.1)
      let haveTotal := dGetI p.resources kv.1 + tokCount
      if haveTotal < kv.2 then need.set kv.1 (kv.2 - haveTotal) else need)
    []

/-- Mirrors `greedy._cheapest_need_to_play`. The `getattr` chains
`cost_play_active` / `cost_play_mat` resolve through the Card property
layer to copies of `play_cost` for both modes. -/
def _cheapest_need_to_play (g : GameState) (pid : Nat) : Dict String Int :=
  let p := g.player pid
  (p.hand.foldl
    (fun best tok =>
      if pyStartsWith tok "RES:" || pyStartsWith tok "VP:" then best
      else
        match g.cards.get? tok with
        | none => best
        | some c =>
          let wantMat := c.can_play_on_mat && mat_slots_free g pid > 0
          let needA := greedyShortfall p c.play_cost
          let needM := if wantMat then greedyShortfall p c.play_cost else needA
          let need := if sumValues needM < sumValues needA then needM else needA
          match best with
          | none => some need
          | some b => if sumValues need < sumValues b then some need else some b)
    none).getD []

/-- Mirrors `greedy._need_weight`. -/
def _need_weight (need : Dict String Int) (key : String) : ℚ := (dGetI need key : ℚ)

/-- greedyScore is the `score` closure of `greedy.choose_action`
(`big_hand_threshold` and `late_round_threshold` are `getattr` defaults
6; hand/pool indices come from `legal_actions` and are in range). -/
def greedyScore (g : GameState) (pid : Nat) (acts : List Action) (a : Action) : WithBot ℚ :=
  let late := g.turn > 6
  match a with
  | .play i toMat _slot =>
    let p := g.player pid
    let tok := p.hand.getD i.toNat ""
    let mode := if toMat then "mat" else "active"
    if pyStartsWith tok "VP:" then
      let vpVal := (pyIntOpt ((pySplit tok ":").getD 1 "")).getD 1
      let bonus : Int := if p.mat.hasKey 1 then 2 else 0
      let handRelief : ℚ := if hand_size g pid ≥ 6 then 0.25 else 0
      ↑(3 * ((vpVal : ℚ) + (bonus : ℚ)) + 0.6 * handRelief)
    else if !(g.cards.hasKey tok) then
      let handRelief : ℚ := if hand_size g pid ≥ 6 then 0.25 else 0
      ↑(0.6 * handRelief + (if mode = "mat" then (0.2 : ℚ) else 0))
    else
      let (vpNow, vpFuture) := expected_vp_if_played_now g tok mode
      let res := resource_delta_if_played_now g tok
      let syn := synergy_bonus g pid tok mode
      let matPref : ℚ := if mode = "mat" && mat_slots_free g pid > 0 then 1 else 0
      let handRelief : ℚ := if hand_size g pid ≥ 6 then 0.25 else 0
      ↑(3 * vpNow + 1.5 * vpFuture + 1 * syn + 0.6 * handRelief + 0.4 * matPref
        + 0.2 * (res : ℚ))
  | .worker field =>
    let need := _cheapest_need_to_play g pid
    if field = "initiative" then _initiative_desirability g pid acts
    else
      let base : ℚ :=
        if field = "rookery" then 1.6
        else if field = "plasma" then 1.3
        else if field = "ash" then 1.1
        else if field = "shards" then 1.1
        else if field = "forage" then 1.0
        else if field = "compost" then 0.9
        else 0.8
      let boost : ℚ :=
        (if field = "plasma" then 0.9 * _need_weight need "plasma" else 0) +
        (if field = "ash" then 0.8 * _need_weight need "ash" else 0) +
        (if field = "shards" then 0.8 * _need_weight need "shards" else 0) +
        (if field = "forage" then
          0.5 * (_need_weight need "nut" + _need_weight need "berry"
                 + _need_weight need "mushroom")
         else 0)
      let base :=
        if late && (field = "plasma" || field = "ash" || field = "shards"
                    || field = "forage")
        then base * 0.9 else base
      ↑(base + boost)
  | .buyPool j =>
    if !(0 ≤ j && j < (g.pool.length : Int)) then ↑(0 : ℚ)
    else
      let cid := g.pool.getD j.toNat ""
      if g.cards.hasKey cid then
        let (vpActNow, vpActFuture) := expected_vp_if_played_now g cid "active"
        let (vpMatNow, vpMatFuture) := expected_vp_if_played_now g cid "mat"
        let matsFree := mat_slots_free g pid
        let matPressure : ℚ :=
          if matsFree = 0 && (vpMatNow + vpMatFuture) > (vpActNow + vpActFuture) + 0.5
          then -0.6 else 0
        let bestV := max (vpActNow + vpActFuture) (vpMatNow + vpMatFuture)
        let playHint : ℚ := if bestV > 0 then 0.2 else 0
        ↑(0.7 * bestV + matPressure + playHint)
      else ↑(0.1 : ℚ)
  | .buyVp v =>
    let base : ℚ :=
      if v = 1 then 0.6 else if v = 2 then 0.9 else if v = 3 then 1.2 else 0.5
    ↑(if late then base else base * 0.8)
  | .passAct => ↑(-1 : ℚ)

/-- pyMaxBy models Python `max(xs, key=f)`: the first element with the
strictly greatest key wins (Python raises on an empty sequence; every
call site here guards nonemptiness, so a default is returned). -/
def pyMaxBy {α β : Type} [LinearOrder β] (xs : List α) (f : α → β) (dflt : α) : α :=
  match xs with
  | [] => dflt
  | x :: rest => rest.foldl (fun best a => if f a > f best then a else best) x

/-- Mirrors `greedy.choose_action`: ε-greedy exploration from the game's
RNG stream, otherwise the first score-maximal legal action. The returned
state carries the advanced RNG (in Python `g.rng` is mutated in place). -/
def greedy_choose (g : GameState) (pid : Nat) : (Action × Bool) × GameState :=
  let acts := legal_actions g pid
  if acts.isEmpty then ((.passAct, false), g)
  else
    let (r, rng) := g.rng.randFloat
    let g := { g with rng := rng }
    if r < g.cfg.explore then
      let guided := acts.filter (fun a =>
        match a with
        | .play .. => true
        | .worker _ => true
        | .buyPool _ => true
        | .buyVp _ => true
        | .passAct => false)
      let (a, rng) := g.rng.choice (if guided.isEmpty then acts else guided)
      ((a, true), { g with rng := rng })
    else
      ((pyMaxBy acts (greedyScore g pid acts) .passAct, false), g)

/-! ## MCTS-lite bot (bots/mcts.py)

`time.time_ns()` is an external wall clock: it is modelled as a stream of
readings consumed one per call (`ClockState`), the only input of the
engine that is not derived from the configuration. -/

/-- ClockState models `time.time_ns`: reading `stream calls` and bumping
the call counter. -/
structure ClockState where
  stream : Nat → Int
  calls : Nat := 0

def ClockState.timeNs (c : ClockState) : Int × ClockState :=
  (c.stream c.calls, { c with calls := c.calls + 1 })

/-- Mirrors `mcts._rotate_to_next_player`. -/
def _rotate_to_next_player (s : GameState) : GameState :=
  let n := s.players.length
  if n = 0 then s
  else if !s.turn_order.isEmpty then
    let idx := if s.turn_order.contains s.current_player
               then s.turn_order.indexOf s.current_player else 0
    { s with current_player := s.turn_order.getD ((idx + 1) % n) 0 }
  else { s with current_player := (s.current_player + 1) % n }

/-- Mirrors `mcts._terminal_value` (win/loss dominates: ±1e3). -/
def _terminal_value (s : GameState) (rootPid : Nat) : Option ℚ :=
  let winners := (s.players.filter (fun p => p.vp ≥ s.cfg.victory_vp)).map (·.id)
  if !winners.isEmpty then
    some (if winners.contains rootPid then 1000 else -1000)
  else none

/-- Mirrors `mcts._static_eval` (VP lead plus a small resource-sum
tiebreaker). -/
def _static_eval (s : GameState) (rootPid : Nat) : ℚ :=
  let vps := s.players.map (·.vp)
  let my := vps.getD rootPid 0
  let opp := if vps.length > 1 then
      (((vps.enum.filter (fun iv => iv.1 ≠ rootPid)).map (·.2)).max?).getD 0
    else 0
  let lead := my - opp
  let resSum := fun (p : PlayerState) => p.resources.values.sum
  let rdiff := if s.players.length > 1 then
      resSum (s.player rootPid) -
        ((((s.players.enum.filter (fun ip => ip.1 ≠ rootPid)).map
            (fun ip => resSum ip.2)).max?).getD 0)
    else 0
  (lead : ℚ) + 0.01 * (rdiff : ℚ)

/-- Mirrors `mcts._default_policy_choose`. The greedy policy is a total
function in the embedding, so the `except` fallback (uniform random
non-pass) is unreachable and not modelled. -/
def _default_policy_choose (s : GameState) (pid : Nat) : Action × GameState :=
  let ((a, _), s) := greedy_choose s pid
  (a, s)

/-- simulateLoop is the `while depth < horizon` loop of
`mcts._simulate_from`. -/
def simulateLoop (rootPid : Nat) : GameState → Nat → ℚ
  | s, 0 => _static_eval s rootPid
  | s, d + 1 =>
    let pid := s.current_player
    let acts := legal_actions s pid
    let (act, s) :=
      if acts.isEmpty then (Action.passAct, s) else _default_policy_choose s pid
    let s := apply_action s pid act
    match _terminal_value s rootPid with
    | some tv => tv
    | none => simulateLoop rootPid (_rotate_to_next_player s) d

/-- Mirrors `mcts._simulate_from`. -/
def _simulate_from (s : GameState) (rootPid : Nat) (horizon : Int) : ℚ :=
  match _terminal_value s rootPid with
  | some tv => tv
  | none => simulateLoop rootPid s horizon.toNat

/-- Mirrors `mcts._budget_ok` (the wall clock is read only when a nonzero
time budget is configured). -/
def _budget_ok (startNs : Int) (stepCount : Nat) (actionsCap timeMs : Int)
    (clk : ClockState) : Bool × ClockState :=
  if actionsCap ≠ 0 && (stepCount : Int) ≥ actionsCap then (false, clk)
  else if timeMs ≠ 0 then
    let (now, clk) := clk.timeNs
    let elapsedMs : ℚ := ((now - startNs : Int) : ℚ) / 1000000
    (!(elapsedMs ≥ (timeMs : ℚ)), clk)
  else (true, clk)

/-- mctsTrial is one body of the sampling loop: deep-copy the game, apply
the root action as `pid`, rotate, and roll out `horizon - 1` plies. -/
def mctsTrial (g : GameState) (pid : Nat) (a : Action) (horizon : Int) : ℚ :=
  let s := { g with current_player := pid }
  let s := apply_action s pid a
  let s := _rotate_to_next_player s
  _simulate_from s pid (max 0 (horizon - 1))

/-- mctsSampleLoop is the round-robin `while` loop of `mcts_choose`
(fuel bounds the iterations: each one adds a sample and the loop guard
stops once every root action holds `total_trials` samples). -/
def mctsSampleLoop (g : GameState) (pid : Nat) (rootActions : List Action)
    (horizon : Int) (totalTrials : Nat) (startNs : Int) (actionsCap timeMs : Int) :
    Nat → Nat → Dict Action ℚ → Dict Action Nat → Nat → ClockState →
    (Dict Action ℚ × Dict Action Nat × Nat × ClockState)
  | 0, _, resultsSum, resultsN, stepCount, clk => (resultsSum, resultsN, stepCount, clk)
  | fuel + 1, idx, resultsSum, resultsN, stepCount, clk =>
    let (ok, clk) := _budget_ok startNs stepCount actionsCap timeMs clk
    if !(ok && resultsN.values.sum < totalTrials * rootActions.length) then
      (resultsSum, resultsN, stepCount, clk)
    else
      let a := rootActions.getD (idx % rootActions.length) .passAct
      let ret := mctsTrial g pid a horizon
      let stepCount := stepCount + 1
      let resultsSum := resultsSum.set a (resultsSum.getD a 0 + ret)
      let resultsN := resultsN.set a (resultsN.getD a 0 + 1)
      let (ok2, clk) := _budget_ok startNs stepCount actionsCap timeMs clk
      if !ok2 then (resultsSum, resultsN, stepCount, clk)
      else mctsSampleLoop g pid rootActions horizon totalTrials startNs actionsCap timeMs
        fuel (idx + 1) resultsSum resultsN stepCount clk

/-- mctsKeyGt is Python tuple `>` on the (mean, non-pass flag) sort key. -/
def mctsKeyGt (a b : WithBot ℚ × Int) : Bool :=
  a.1 > b.1 || (a.1 = b.1 && a.2 > b.2)

/-- Mirrors `mcts.mcts_choose` (with `actions_cap` / `time_ms` keeping
their source defaults of 0 at the only — unreachable — call site). The
second component of the returned pair mirrors the Python `False`
(`None` on the empty-actions path is also falsy). -/
def mcts_choose (clk : ClockState) (g : GameState) (pid : Nat)
    (rollouts horizon actionsCap timeMs : Int) : (Action × Bool) × ClockState :=
  let rootActions := legal_actions g pid
  if rootActions.isEmpty then ((.passAct, false), clk)
  else
    let nonPass := rootActions.filter (fun a => a ≠ .passAct)
    if nonPass.length = 1 then ((nonPass.getD 0 .passAct, false), clk)
    else
      let resultsSum : Dict Action ℚ := rootActions.map (fun a => (a, 0))
      let resultsN : Dict Action Nat := rootActions.map (fun a => (a, 0))
      let (startNs, clk) := clk.timeNs
      let totalTrials := (max 1 rollouts).toNat
      let fuel := totalTrials * rootActions.length + 1
      let (resultsSum, resultsN, stepCount, clk) :=
        mctsSampleLoop g pid rootActions horizon totalTrials startNs actionsCap timeMs
          fuel 0 resultsSum resultsN 0 clk
      -- best-effort backfill for actions that received zero samples
      let (resultsSum, resultsN, _, clk) :=
        rootActions.foldl
          (fun acc a =>
            let (resultsSum, resultsN, stepCount, clk) := acc
            if resultsN.getD a 0 = 0 then
              let (ok, clk) := _budget_ok startNs stepCount actionsCap timeMs clk
              if ok then
                let ret := mctsTrial g pid a horizon
                (resultsSum.set a (resultsSum.getD a 0 + ret),
                 resultsN.set a (resultsN.getD a 0 + 1), stepCount + 1, clk)
              else (resultsSum, resultsN, stepCount, clk)
            else (resultsSum, resultsN, stepCount, clk))
          (resultsSum, resultsN, stepCount, clk)
      let mean := fun (a : Action) =>
        let n := resultsN.getD a 0
        if n > 0 then ((resultsSum.getD a 0 / (n : ℚ) : ℚ) : WithBot ℚ) else ⊥
      let key := fun (x : Action) =>
        (mean x, if x ≠ .passAct then (0 : Int) else -1)
      let best :=
        match rootActions with
        | [] => Action.passAct
        | x :: rest => rest.foldl (fun b a => if mctsKeyGt (key a) (key b) then a else b) x
      ((best, false), clk)

/-! ## Game loop (engine/loop.py)

The bot wiring imports `choose_action` from both bot modules inside
`try/except`; `bots/greedy.py` defines `choose_action`, while
`bots/mcts.py` defines only `mcts_choose`, so the MCTS import raises
ImportError and `mcts_choose` is `None` in `loop.py` for every run. The
module export lists below record the top-level definitions of each module
so this name resolution is part of the embedding. -/

def greedyModuleTopLevelDefs : List String :=
  ["_parse_worker_field", "_initiative_variants", "_distance_to_first",
   "_initiative_desirability", "_cheapest_need_to_play", "_need_weight",
   "choose_action"]

def mctsModuleTopLevelDefs : List String :=
  ["_rotate_to_next_player", "_terminal_value", "_static_eval",
   "_default_policy_choose", "_simulate_from", "_budget_ok", "mcts_choose"]

def setupModuleTopLevelDefs : List String :=
  ["reshuffle_if_needed", "draw", "draw_to_hand_size", "slot2_type",
   "total_discount_for_card", "discounted_cost", "can_pay_res", "pay_res",
   "effect_tags", "compost_gains_for", "grant_resources", "compost_from_hand",
   "setup"]

/-- greedyChooseImported: `from scarecrovv.bots.greedy import choose_action`
succeeds. -/
def greedyChooseImported : Bool := greedyModuleTopLevelDefs.contains "choose_action"

/-- mctsChooseImported: `from scarecrovv.bots.mcts import choose_action`
binds `None` because the module defines no `choose_action`. -/
def mctsChooseImported : Bool := mctsModuleTopLevelDefs.contains "choose_action"

/-- ChooseFn is the shape of one bot decision: it may advance the game's
RNG (greedy) or read the wall clock (MCTS). -/
def ChooseFn : Type := GameState → Nat → ClockState → (Action × Bool) × GameState × ClockState

def greedyAsChooseFn : ChooseFn := fun g pid clk =>
  ((greedy_choose g pid).1, (greedy_choose g pid).2, clk)

/-- mctsAsChooseFn adapts `mcts_choose` to the loop's two-argument call.
This branch is unreachable (the import failed); had it been reachable the
Python call `choose_action(g, pid)` would in fact raise TypeError, since
`mcts_choose` requires `rollouts` and `horizon`. -/
def mctsAsChooseFn (cfg : Config) : ChooseFn := fun g pid clk =>
  let (ab, clk) := mcts_choose clk g pid cfg.rollouts cfg.horizon 0 0
  (ab, g, clk)

/-- Mirrors `loop._winner_or_none`. -/
def _winner_or_none (g : GameState) : Option Nat :=
  (g.players.find? (fun p => p.vp ≥ g.cfg.victory_vp)).map (·.id)

/-- Mirrors `loop._winner_by_points` (max VP, then max plasma, then a
choice from the game RNG among the still-tied). -/
def _winner_by_points (g : GameState) : Nat × GameState :=
  let vps := g.players.map (·.vp)
  let best := vps.max?.getD 0
  let candidates := (List.range g.players.length).filter (fun i => vps.getD i 0 = best)
  if candidates.length = 1 then (candidates.getD 0 0, g)
  else
    let bestPlasma :=
      ((candidates.map (fun i => dGetI (g.player i).resources "plasma")).max?).getD 0
    let c2 := candidates.filter (fun i => dGetI (g.player i).resources "plasma" = bestPlasma)
    if c2.length = 1 then (c2.getD 0 0, g)
    else
      let (w, rng) := g.rng.choice c2
      (w, { g with rng := rng })

/-- Mirrors `loop._advance_player` (next non-passed seat in round-robin
order; no change when everyone has passed). -/
def _advance_player (g : GameState) (passed : List Bool) : GameState :=
  let g := if g.turn_order.isEmpty then g.set_turn_order_for_round else g
  let idx := if g.turn_order.contains g.current_player
             then g.turn_order.indexOf g.current_player else 0
  let n := g.turn_order.length
  match (List.range' 1 n).find?
      (fun step => !(passed.getD (g.turn_order.getD ((idx + step) % n) 0) false)) with
  | some step => { g with current_player := g.turn_order.getD ((idx + step) % n) 0 }
  | none => g

/-- Mirrors `loop._bot_label_from_cfg` (always "greedy": the MCTS import
failed, so `mcts_choose` is falsy). -/
def _bot_label_from_cfg (cfg : Config) : String :=
  if cfg.mcts ≠ 0 && mctsChooseImported then
    "mcts@" ++ intToStr cfg.rollouts ++ "x" ++ intToStr cfg.horizon
  else "greedy"

/-- Mirrors `loop._choose_action_for_cfg` (the docstring promises "pick
the bot's choose_action based on cfg; fallback to greedy if MCTS
unavailable"; MCTS is always unavailable, see `mctsChooseImported`). -/
def _choose_action_for_cfg (cfg : Config) : ChooseFn :=
  if cfg.mcts ≠ 0 && mctsChooseImported then mctsAsChooseFn cfg
  else if greedyChooseImported then greedyAsChooseFn
  else fun g _pid clk => ((.passAct, false), g, clk)

/-- GameResult mirrors the result dict returned by `play_one` (the
"players" entry keeps each seat's `first_play` map; "owned" is always
empty in the source). -/
structure GameResult where
  winner : Nat
  starter : Nat
  starter_bot : String
  vps : List Int
  first_plays : List (Dict String Int)
  events : List Event
  deriving Repr, DecidableEq

/-- playLoop is the `for _ in range(turn_cap)` loop of `play_one`
(`n` and the per-turn action allotment 2 are loop constants in the
source). A `some` result is an immediate VP-threshold win; `none` means
the cap was exhausted. -/
def playLoop (choose : ChooseFn) (n : Nat) :
    Nat → GameState → ClockState → List Bool → Int → Option Nat × GameState × ClockState
  | 0, g, clk, _, _ => (none, g, clk)
  | fuel + 1, g, clk, passed, actionsLeft =>
    if passed.all (· = true) then
      let g := end_of_round g
      match _winner_or_none g with
      | some w => (some w, g.emit (.winEv w "vp_threshold" none), clk)
      | none =>
        let g := start_of_round g
        playLoop choose n fuel { g with current_player := g.start_player } clk
          (List.replicate n false) 2
    else
      let pid := g.current_player
      if passed.getD pid false then
        playLoop choose n fuel (_advance_player g passed) clk passed 2
      else
        let acr := choose g pid clk
        let action := acr.1.1
        let explored := acr.1.2
        let g := acr.2.1
        let clk := acr.2.2
        let g := if explored then g.emit (.exploreFlag pid) else g
        let g := apply_action g pid action
        let pa :=
          if action = .passAct then (passed.set pid true, (0 : Int))
          else (passed, actionsLeft - 1)
        match _winner_or_none g with
        | some w => (some w, g.emit (.winEv w "vp_threshold" none), clk)
        | none =>
          if pa.2 ≤ 0 then
            playLoop choose n fuel (_advance_player g pa.1) clk pa.1 2
          else playLoop choose n fuel g clk pa.1 pa.2

/-- resolveWinner is the post-loop winner resolution of `play_one`: an
immediate VP-threshold winner stands; otherwise `_winner_by_points`
decides and a "points_at_cap" win event is logged. -/
def resolveWinner (res : Option Nat × GameState) : Nat × GameState :=
  match res.1 with
  | some w => (w, res.2)
  | none =>
    let wg := _winner_by_points res.2
    (wg.1, wg.2.emit (.winEv wg.1 "points_at_cap" (some wg.2.turn)))

/-- Mirrors `loop.play_one`. Inputs beyond the configuration: the loaded
card library `lib` (external CSV data) and the wall-clock reading stream
`clock` (consulted only by the MCTS budget checks). `actions_per_turn`
and `turn_cap` are `getattr` defaults (2 and 5000): `Config` defines
neither. -/
def play_one (lib : Dict String Card) (cfg : Config) (clock : ClockState) : GameResult :=
  let g := setup lib cfg
  let choose := _choose_action_for_cfg cfg
  let starter := g.start_player
  let starterBot := _bot_label_from_cfg cfg
  let g := g.emit (.gameStart g.cfg.seed starter starterBot)
  let g := start_of_round g
  let n := g.players.length
  let g := { g with current_player := g.start_player }
  let res := playLoop choose n 5000 g clock (List.replicate n false) 2
  let wg := resolveWinner (res.1, res.2.1)
  let winner := wg.1
  let g := wg.2
  let vps := g.players.map (·.vp)
  let g := g.emit (.gameEndVp vps)
  { winner := winner, starter := starter, starter_bot := starterBot, vps := vps,
    first_plays := g.players.map (·.first_play_turn), events := g.log }

/-! ## Concrete fixtures for closed evaluations -/

/-- c1Player holds one VP:1 token with plasma 1 and shards 1: exactly the
fixed part of the default VP:1 play cost, leaving nothing for the
pay-one-of part after the fixed part is paid. -/
def c1Player : PlayerState :=
  { id := 0, hand := ["VP:1"],
    resources := [("plasma", 1), ("ash", 0), ("shards", 1), ("nut", 0),
                  ("berry", 0), ("mushroom", 0)] }

def c1Game : GameState := { cfg := {}, rng := ⟨0⟩, players := [c1Player] }

/-- c3Player holds one resource token and nothing else (no workers). -/
def c3Player : PlayerState := { id := 0, hand := ["RES:plasma"], workers := 0 }

def c3Game : GameState := { cfg := {}, rng := ⟨0⟩, players := [c3Player] }

def cardA : Card := { id := "cardA", name := "Card A" }

def cardB : Card := { id := "cardB", name := "Card B" }

def c4Player : PlayerState :=
  { id := 0,
    resources := [("plasma", 3), ("ash", 0), ("shards", 0), ("nut", 0),
                  ("berry", 0), ("mushroom", 0)] }

/-- c4Game has one face-up pool card and one supply card left. -/
def c4Game : GameState :=
  { cfg := {}, rng := ⟨0⟩, cards := [("cardA", cardA), ("cardB", cardB)],
    supply := ["cardB"], pool := ["cardA"], players := [c4Player] }

/-- cardDelta carries the `hand_size_delta_next_round:+2` effect tag. -/
def cardDelta : Card :=
  { id := "delta1", name := "Delta", play_cost := [], type_ := "Global",
    can_play_on_mat := false, effect := "hand_size_delta_next_round:+2" }

def c5Player : PlayerState :=
  { id := 0, hand := ["delta1"], deck := List.replicate 10 "RES:plasma" }

def c5Game : GameState :=
  { cfg := {}, rng := ⟨0⟩, cards := [("delta1", cardDelta)],
    players := [c5Player], hand_size_delta_next_round := [(0, 0)] }

def c5AfterPlay : GameState := apply_action c5Game 0 (.play 0 false none)

def cardFarm : Card :=
  { id := "farm1", name := "Farm One", play_cost := [], type_ := "Farm",
    mat_points := 2, can_play_on_mat := true }

def c6Player : PlayerState := { id := 0, hand := ["farm1"] }

def c6Game : GameState :=
  { cfg := {}, rng := ⟨0⟩, cards := [("farm1", cardFarm)], players := [c6Player] }

/-- occVal reads a field's occupancy exactly as `_act_worker` and
`legal_actions` do: `occ_raw = g.field_occupancy.get(field, 0)` then
`occ = 0 if occ_raw is None else int(occ_raw)`. -/
def occVal (g : GameState) (f : String) : Int :=
  ((g.field_occupancy.get? f).getD (some 0)).getD 0

/-- capVal reads a field's capacity exactly as `_act_worker` does:
`cap = g.field_capacity.get(field, 0)` (and `int(cap or 0)` is the
identity on ints). -/
def capVal (g : GameState) (f : String) : Int :=
  g.field_capacity.getD f 0

/-- resNonneg: every resource counter of the player is ≥ 0. -/
abbrev resNonneg (p : PlayerState) : Prop := ∀ kv ∈ p.resources, 0 ≤ kv.2

/-- gResNonneg: every resource counter of every player is ≥ 0. -/
abbrev gResNonneg (g : GameState) : Prop := ∀ p ∈ g.players, resNonneg p

/-- c10Player mirrors the C1 scenario: exactly the fixed part of the
default VP:1 play cost, so the pay-one-of step will fail after the fixed
part is paid — the interesting path for resource nonnegativity. -/
def c10Player : PlayerState :=
  { id := 0, hand := ["VP:1"],
    resources := [("plasma", 1), ("ash", 0), ("shards", 1), ("nut", 0),
                  ("berry", 0), ("mushroom", 0)] }

def c10Game : GameState := { cfg := {}, rng := ⟨0⟩, players := [c10Player] }

/-- c7Player has one worker and an empty hand. -/
def c7Player : PlayerState := { id := 0, workers := 1 }

/-- c7Game has a single field (`plasma`, capacity 2) at occupancy 1. -/
def c7Game : GameState :=
  { cfg := {}, rng := ⟨0⟩, players := [c7Player],
    field_capacity := [("plasma", 2)], field_occupancy := [("plasma", some 1)] }

/-! # Theorems -/

/-! ## Dictionary and state helper lemmas -/

lemma dict_get?_set_self {α β : Type} [DecidableEq α] (d : Dict α β) (k : α) (v : β) :
    (d.set k v).get? k = some v := by
  induction d with
  | nil => simp [Dict.set, Dict.get?]
  | cons kv rest ih =>
    obtain ⟨a, b⟩ := kv
    by_cases h : a = k
    · simp [Dict.set, Dict.get?, h]
    · simp [Dict.set, Dict.get?, h, ih]

lemma dict_get?_set_ne {α β : Type} [DecidableEq α] (d : Dict α β) (k k' : α) (v : β)
    (h : k' ≠ k) : (d.set k v).get? k' = d.get? k' := by
  induction d with
  | nil => simp [Dict.set, Dict.get?, Ne.symm h]
  | cons kv rest ih =>
    obtain ⟨a, b⟩ := kv
    by_cases hk : a = k
    · subst hk
      have ha : ¬(a = k') := fun hh => h hh.symm
      simp [Dict.set, Dict.get?, ha]
    · simp only [Dict.set, hk, if_false]
      by_cases hk' : a = k'
      · simp [Dict.get?, hk']
      · simp [Dict.get?, hk', ih]

lemma dict_mem_set {α β : Type} [DecidableEq α] (d : Dict α β) (k : α) (v : β)
    (kv' : α × β) (h : kv' ∈ d.set k v) : kv' ∈ d ∨ kv' = (k, v) := by
  induction d with
  | nil => simpa [Dict.set] using h
  | cons kv rest ih =>
    obtain ⟨a, b⟩ := kv
    by_cases hk : a = k
    · subst hk
      simp only [Dict.set, if_true] at h
      rcases List.mem_cons.mp h with h1 | h2
      · exact Or.inr h1
      · exact Or.inl (List.mem_cons_of_mem _ h2)
    · simp only [Dict.set, hk, if_false] at h
      rcases List.mem_cons.mp h with h1 | h2
      · exact Or.inl (h1 ▸ List.mem_cons_self _ _)
      · rcases ih h2 with h3 | h3
        · exact Or.inl (List.mem_cons_of_mem _ h3)
        · exact Or.inr h3

lemma dict_get?_mem {α β : Type} [DecidableEq α] (d : Dict α β) (k : α) (v : β)
    (hg : d.get? k = some v) : (k, v) ∈ d := by
  induction d with
  | nil => simp [Dict.get?] at hg
  | cons kv rest ih =>
    obtain ⟨a, b⟩ := kv
    by_cases hk : a = k
    · subst hk
      simp only [Dict.get?, if_true, Option.some.injEq] at hg
      subst hg
      exact List.mem_cons_self _ _
    · simp only [Dict.get?, hk, if_false] at hg
      exact List.mem_cons_of_mem _ (ih hg)

lemma dGetI_nonneg_of_resNonneg (d : Dict String Int)
    (h : ∀ kv ∈ d, 0 ≤ kv.2) (k : String) : 0 ≤ dGetI d k := by
  unfold dGetI Dict.getD
  cases hg : d.get? k with
  | none => simp
  | some v => simpa using h _ (dict_get?_mem d k v hg)

lemma player_setPlayer_self (g : GameState) (pid : Nat) (p : PlayerState)
    (h : pid < g.players.length) : (g.setPlayer pid p).player pid = p := by
  unfold GameState.setPlayer GameState.player
  simp [List.getD, List.getElem?_set_self h]

lemma setPlayer_players_length (g : GameState) (pid : Nat) (p : PlayerState) :
    (g.setPlayer pid p).players.length = g.players.length := by
  simp [GameState.setPlayer]

lemma emit_player (g : GameState) (e : Event) (pid : Nat) :
    (g.emit e).player pid = g.player pid := rfl

lemma emit_players_length (g : GameState) (e : Event) :
    (g.emit e).players.length = g.players.length := rfl

lemma foldl_proj_eq {α β γ : Type} (f : β → α → β) (proj : β → γ)
    (h : ∀ b a, proj (f b a) = proj b) :
    ∀ (l : List α) (b : β), proj (l.foldl f b) = proj b := by
  intro l
  induction l with
  | nil => intro b; rfl
  | cons x rest ih => intro b; rw [List.foldl_cons, ih, h]

lemma removeTok_snd_mat (p : PlayerState) (k : String) (n : Int) :
    ((_remove_res_tokens_from_hand p k n).2).mat = p.mat := by
  unfold _remove_res_tokens_from_hand
  split <;> rfl

lemma removeTok_snd_discard (p : PlayerState) (k : String) (n : Int) :
    ((_remove_res_tokens_from_hand p k n).2).discard = p.discard := by
  unfold _remove_res_tokens_from_hand
  split <;> rfl

lemma removeTok_snd_resources (p : PlayerState) (k : String) (n : Int) :
    ((_remove_res_tokens_from_hand p k n).2).resources = p.resources := by
  unfold _remove_res_tokens_from_hand
  split <;> rfl

lemma pay_mixed_mat (p : PlayerState) (cost : Dict String Int) (b : Bool) :
    (_pay_mixed p cost b).mat = p.mat := by
  unfold _pay_mixed
  refine foldl_proj_eq _ PlayerState.mat ?_ cost p
  intro q kv
  simp only [payMixedStep]
  repeat' split
  all_goals simp [removeTok_snd_mat]

lemma pay_mixed_discard (p : PlayerState) (cost : Dict String Int) (b : Bool) :
    (_pay_mixed p cost b).discard = p.discard := by
  unfold _pay_mixed
  refine foldl_proj_eq _ PlayerState.discard ?_ cost p
  intro q kv
  simp only [payMixedStep]
  repeat' split
  all_goals simp [removeTok_snd_discard]

lemma grant_resources_mat (p : PlayerState) (grants : Dict String Int) :
    (grant_resources p grants).mat = p.mat := by
  unfold grant_resources
  refine foldl_proj_eq _ PlayerState.mat ?_ grants p
  intro q kv
  rfl

lemma grant_resources_discard (p : PlayerState) (grants : Dict String Int) :
    (grant_resources p grants).discard = p.discard := by
  unfold grant_resources
  refine foldl_proj_eq _ PlayerState.discard ?_ grants p
  intro q kv
  rfl

lemma compost_player_mat (g : GameState) (pid : Nat) (idx : Nat) (r : String)
    (hpid : pid < g.players.length) :
    ((compost_from_hand g pid idx r).player pid).mat = (g.player pid).mat := by
  simp only [compost_from_hand]
  split
  · split
    · simp only [emit_player]
      split
      · simp [player_setPlayer_self, setPlayer_players_length, hpid]
      · simp [emit_player, player_setPlayer_self, setPlayer_players_length, hpid,
          grant_resources_mat]
    · simp [emit_player, player_setPlayer_self, hpid]
  · rfl

lemma compost_player_discard (g : GameState) (pid : Nat) (idx : Nat) (r : String)
    (hpid : pid < g.players.length) :
    ((compost_from_hand g pid idx r).player pid).discard = (g.player pid).discard := by
  simp only [compost_from_hand]
  split
  · split
    · simp only [emit_player]
      split
      · simp [player_setPlayer_self, setPlayer_players_length, hpid]
      · simp [emit_player, player_setPlayer_self, setPlayer_players_length, hpid,
          grant_resources_discard]
    · simp [emit_player, player_setPlayer_self, hpid]
  · rfl

lemma compost_players_length (g : GameState) (pid : Nat) (idx : Nat) (r : String) :
    (compost_from_hand g pid idx r).players.length = g.players.length := by
  simp only [compost_from_hand]
  split
  · split
    · simp only [emit_players_length]
      split
      · simp [setPlayer_players_length]
      · simp [emit_players_length, setPlayer_players_length]
    · simp [emit_players_length, setPlayer_players_length]
  · rfl

lemma libTelemetry_players_length (g : GameState) (pid : Nat) (c : Card) :
    (libTelemetry g pid c).players.length = g.players.length := by
  simp only [libTelemetry]
  split
  · rfl
  · simp [setPlayer_players_length]

lemma libTelemetry_player_mat (g : GameState) (pid : Nat) (c : Card)
    (hpid : pid < g.players.length) :
    ((libTelemetry g pid c).player pid).mat = (g.player pid).mat := by
  simp only [libTelemetry]
  split
  · rfl
  · simp [player_setPlayer_self, hpid]

lemma libTelemetry_player_discard (g : GameState) (pid : Nat) (c : Card)
    (hpid : pid < g.players.length) :
    ((libTelemetry g pid c).player pid).discard = (g.player pid).discard := by
  simp only [libTelemetry]
  split
  · rfl
  · simp [player_setPlayer_self, hpid]

lemma libMatCase_players_length (g : GameState) (pid : Nat) (c : Card) (s : Int) :
    (libMatCase g pid c s).players.length = g.players.length := by
  simp only [libMatCase, emit_players_length]
  split
  · simp [setPlayer_players_length, emit_players_length]
  · split
    · split
      · simp [setPlayer_players_length, compost_players_length]
      · simp [setPlayer_players_length]
    · simp [setPlayer_players_length]

lemma libMatCase_player_mat (g : GameState) (pid : Nat) (c : Card) (s : Int)
    (hpid : pid < g.players.length) :
    ((libMatCase g pid c s).player pid).mat = ((g.player pid).mat.set s c.id) := by
  simp only [libMatCase, emit_player]
  split
  · simp [player_setPlayer_self, setPlayer_players_length, emit_player,
      emit_players_length, hpid]
  · split
    · split
      · rw [player_setPlayer_self]
        · simp only [compost_player_mat, compost_players_length,
            setPlayer_players_length, hpid, player_setPlayer_self]
        · simp [compost_players_length, setPlayer_players_length, hpid]
      · simp [player_setPlayer_self, setPlayer_players_length, hpid]
    · simp [player_setPlayer_self, setPlayer_players_length, hpid]

lemma libMatCase_player_discard (g : GameState) (pid : Nat) (c : Card) (s : Int)
    (hpid : pid < g.players.length) :
    ((libMatCase g pid c s).player pid).discard =
      (g.player pid).discard ++ [c.id] := by
  simp only [libMatCase, emit_player]
  split
  · simp [player_setPlayer_self, setPlayer_players_length, emit_player,
      emit_players_length, hpid]
  · split
    · split
      · rw [player_setPlayer_self]
        · simp only [compost_player_discard, compost_players_length,
            setPlayer_players_length, hpid, player_setPlayer_self]
        · simp [compost_players_length, setPlayer_players_length, hpid]
      · simp [player_setPlayer_self, setPlayer_players_length, hpid]
    · simp [player_setPlayer_self, setPlayer_players_length, hpid]

/-! ## Bot selection (claim C8) -/

/-- chooseActionForCfg_eq_greedy: whatever the configuration, the
selected decision function is the greedy one, because the import of
`choose_action` from `bots/mcts` fails (the module defines only
`mcts_choose`) and the loop falls back to greedy. -/
lemma chooseActionForCfg_eq_greedy (cfg : Config) :
    _choose_action_for_cfg cfg = greedyAsChooseFn := by
  unfold _choose_action_for_cfg
  have hm : mctsChooseImported = false := by decide
  have hg : greedyChooseImported = true := by decide
  rw [hm, hg]
  simp

/-- C8: the claim says a nonzero `cfg.mcts` makes the MCTS policy resolve
every decision point of `play_one`; in fact
`from scarecrovv.bots.mcts import choose_action` raises ImportError (the
module's top-level
definitions do not include `choose_action`), so `_choose_action_for_cfg`
returns the greedy policy for every configuration, including the default
one with `mcts = 1`. -/
theorem C8_mcts_mode_still_uses_greedy :
    mctsChooseImported = false ∧
    (Config.mcts {} ≠ 0) ∧
    (∀ cfg : Config, _choose_action_for_cfg cfg = greedyAsChooseFn) :=
  ⟨by decide, by decide, chooseActionForCfg_eq_greedy⟩

/-! ## Determinism (claim C9) -/

set_option maxHeartbeats 2000000 in
/-- playLoop_greedy_clock_blind: under the greedy decision function the
loop result (winner and final state) does not depend on the wall-clock
stream. -/
lemma playLoop_greedy_clock_blind :
    ∀ (fuel : Nat) (n : Nat) (g : GameState) (clk₁ clk₂ : ClockState)
      (passed : List Bool) (al : Int),
      ((playLoop greedyAsChooseFn n fuel g clk₁ passed al).1,
        (playLoop greedyAsChooseFn n fuel g clk₁ passed al).2.1) =
      ((playLoop greedyAsChooseFn n fuel g clk₂ passed al).1,
        (playLoop greedyAsChooseFn n fuel g clk₂ passed al).2.1) := by
  intro fuel
  induction fuel with
  | zero => intro n g clk₁ clk₂ passed al; rfl
  | succ fuel ih =>
    intro n g clk₁ clk₂ passed al
    simp only [playLoop, greedyAsChooseFn]
    repeat' split
    all_goals first
      | rfl
      | exact ih n _ clk₁ clk₂ _ _

/-- C9: with a fixed configuration and card library, two executions of
`play_one` — differing only in the environment the engine does not
control, the wall-clock stream — produce identical results: same winner,
same per-player VP list, and an identical event log. Every random choice
(deck shuffles, exploration, tie-breaks) is drawn from the single
`Rng.init cfg.seed` stream threaded through the game state in a fixed
call order, and the only wall-clock consumer (the MCTS budget check) is
never selected. -/
theorem C9_play_one_deterministic (lib : Dict String Card) (cfg : Config)
    (clock₁ clock₂ : ClockState) :
    play_one lib cfg clock₁ = play_one lib cfg clock₂ := by
  have h1 : ∀ (n : Nat) (g : GameState) (passed : List Bool) (al : Int),
      (playLoop greedyAsChooseFn n 5000 g clock₁ passed al).1 =
        (playLoop greedyAsChooseFn n 5000 g clock₂ passed al).1 := by
    intro n g passed al
    have h := playLoop_greedy_clock_blind 5000 n g clock₁ clock₂ passed al
    rw [Prod.mk.injEq] at h
    exact h.1
  have h2 : ∀ (n : Nat) (g : GameState) (passed : List Bool) (al : Int),
      (playLoop greedyAsChooseFn n 5000 g clock₁ passed al).2.1 =
        (playLoop greedyAsChooseFn n 5000 g clock₂ passed al).2.1 := by
    intro n g passed al
    have h := playLoop_greedy_clock_blind 5000 n g clock₁ clock₂ passed al
    rw [Prod.mk.injEq] at h
    exact h.2
  simp only [play_one]
  rw [chooseActionForCfg_eq_greedy]
  rw [h1, h2]

/-! ## Discount lemmas and claim C2 -/

lemma dict_get?_eq_none_of_not_mem_keys {α β : Type} [DecidableEq α]
    (d : Dict α β) (k : α) (h : k ∉ d.keys) : d.get? k = none := by
  induction d with
  | nil => rfl
  | cons kv rest ih =>
    obtain ⟨a, b⟩ := kv
    simp only [Dict.keys, List.map_cons, List.mem_cons] at h
    push_neg at h
    have ha : ¬(a = k) := fun hh => h.1 hh.symm
    simp only [Dict.get?, ha, if_false]
    exact ih h.2

lemma dict_get?_del_self_of_nodup {α β : Type} [DecidableEq α]
    (d : Dict α β) (k : α) (h : d.keys.Nodup) : (d.del k).get? k = none := by
  induction d with
  | nil => rfl
  | cons kv rest ih =>
    obtain ⟨a, b⟩ := kv
    simp only [Dict.keys, List.map_cons, List.nodup_cons] at h
    by_cases hk : a = k
    · subst hk
      simp only [Dict.del, if_pos rfl]
      exact dict_get?_eq_none_of_not_mem_keys rest a h.1
    · simp only [Dict.del, hk, if_false, Dict.get?]
      exact ih h.2

lemma dict_get?_del_ne {α β : Type} [DecidableEq α]
    (d : Dict α β) (k k' : α) (h : k' ≠ k) : (d.del k).get? k' = d.get? k' := by
  induction d with
  | nil => rfl
  | cons kv rest ih =>
    obtain ⟨a, b⟩ := kv
    by_cases hk : a = k
    · subst hk
      have ha : ¬(a = k') := fun hh => h hh.symm
      simp only [Dict.del, eq_self_iff_true, if_true, Dict.get?, ha, if_false]
    · simp only [Dict.del, hk, if_false, Dict.get?]
      by_cases hk' : a = k'
      · simp [hk']
      · simp only [hk', if_false]
        exact ih

lemma sumValues_set (d : Dict String Int) (k : String) (v v0 : Int)
    (h : d.get? k = some v0) : sumValues (d.set k v) = sumValues d - v0 + v := by
  induction d with
  | nil => simp [Dict.get?] at h
  | cons kv rest ih =>
    obtain ⟨a, b⟩ := kv
    by_cases hk : a = k
    · subst hk
      simp only [Dict.get?, eq_self_iff_true, if_true, Option.some.injEq] at h
      subst h
      simp only [Dict.set, eq_self_iff_true, if_true, sumValues, Dict.values,
        List.map_cons, List.sum_cons]
      ring
    · simp only [Dict.get?, hk, if_false] at h
      simp only [Dict.set, hk, if_false, sumValues, Dict.values, List.map_cons, List.sum_cons]
      have hrec := ih h
      simp only [sumValues, Dict.values] at hrec
      rw [hrec]
      ring

lemma sumValues_del (d : Dict String Int) (k : String) (v0 : Int)
    (h : d.get? k = some v0) : sumValues (d.del k) = sumValues d - v0 := by
  induction d with
  | nil => simp [Dict.get?] at h
  | cons kv rest ih =>
    obtain ⟨a, b⟩ := kv
    by_cases hk : a = k
    · subst hk
      simp only [Dict.get?, eq_self_iff_true, if_true, Option.some.injEq] at h
      subst h
      simp only [Dict.del, eq_self_iff_true, if_true, sumValues, Dict.values,
        List.map_cons, List.sum_cons]
      ring
    · simp only [Dict.get?, hk, if_false] at h
      simp only [Dict.del, hk, if_false, sumValues, Dict.values, List.map_cons, List.sum_cons]
      have hrec := ih h
      simp only [sumValues, Dict.values] at hrec
      rw [hrec]
      ring

lemma dGetI_of_get? (d : Dict String Int) (k : String) (v : Int)
    (h : d.get? k = some v) : dGetI d k = v := by
  unfold dGetI Dict.getD
  rw [h]
  rfl

lemma dGetI_of_get?_none (d : Dict String Int) (k : String)
    (h : d.get? k = none) : dGetI d k = 0 := by
  unfold dGetI Dict.getD
  rw [h]
  rfl

lemma dGetI_eq_of_get?_eq (d1 d2 : Dict String Int) (k : String)
    (h : d1.get? k = d2.get? k) : dGetI d1 k = dGetI d2 k := by
  unfold dGetI Dict.getD
  rw [h]

lemma dGetI_pos_get? (d : Dict String Int) (k : String) (h : dGetI d k > 0) :
    d.get? k = some (dGetI d k) := by
  cases hg : d.get? k with
  | none => rw [dGetI_of_get?_none d k hg] at h; omega
  | some v => rw [dGetI_of_get? d k v hg]

lemma dict_keys_set_of_mem {α β : Type} [DecidableEq α]
    (d : Dict α β) (k : α) (v : β) (hmem : k ∈ d.keys) : (d.set k v).keys = d.keys := by
  induction d with
  | nil => simp [Dict.keys] at hmem
  | cons kv rest ih =>
    obtain ⟨a, b⟩ := kv
    by_cases hk : a = k
    · simp [Dict.set, hk, Dict.keys]
    · simp only [Dict.keys, List.map_cons, List.mem_cons] at hmem
      rcases hmem with h1 | h1
      · exact absurd h1.symm hk
      · simp only [Dict.set, hk, if_false, Dict.keys, List.map_cons]
        have := ih h1
        simp only [Dict.keys] at this
        rw [this]

/-- discountFirstRes_spec: the loop decrements the first key (in the
given priority list) with a positive entry, deleting it when it drops to
zero, and leaves the dict unchanged when no key qualifies. -/
lemma discountFirstRes_spec (ks : List String) (cost : Dict String Int) :
    discountFirstRes ks cost =
      match ks.find? (fun k => decide (dGetI cost k > 0)) with
      | none => cost
      | some k0 =>
        let c1 := cost.set k0 (dGetI cost k0 - 1)
        if dGetI c1 k0 ≤ 0 then c1.del k0 else c1 := by
  induction ks with
  | nil => rfl
  | cons k ks ih =>
    by_cases h : dGetI cost k > 0
    · rw [List.find?_cons_of_pos _ (by simpa using h)]
      simp only [discountFirstRes, if_pos h]
    · rw [List.find?_cons_of_neg _ (by simpa using h)]
      simp only [discountFirstRes, if_neg h]
      exact ih

/-- C2: the mat discount removes at most one resource unit in total, even
when several discount conditions hold (`min(disc, 1)`); when it applies
and the cost has a positive entry, the unit comes off the first such
entry in the fixed RES priority order (plasma, ash, shards, nut, berry,
mushroom); the entry is deleted exactly when it reaches zero; no entry is
ever pushed below zero; and the total cost drops by at most one unit.
The `Nodup` hypothesis is dict well-formedness (Python dict keys are
unique). -/
theorem C2_discount_single_unit_priority_order
    (g : GameState) (p : PlayerState) (c : Card)
    (hnodup : c.play_cost.keys.Nodup) :
    total_discount_for_card g p c ≤ 1 ∧
    (let eff := discounted_cost c (total_discount_for_card g p c)
     (eff = c.play_cost ∨
      ∃ k0, RES.find? (fun k => decide (dGetI c.play_cost k > 0)) = some k0 ∧
        dGetI eff k0 = dGetI c.play_cost k0 - 1 ∧
        (∀ k, k ≠ k0 → dGetI eff k = dGetI c.play_cost k) ∧
        (eff.hasKey k0 = !(decide (dGetI c.play_cost k0 = 1)))) ∧
     (∀ k, 0 ≤ dGetI c.play_cost k → 0 ≤ dGetI eff k) ∧
     sumValues c.play_cost - 1 ≤ sumValues eff ∧
     sumValues eff ≤ sumValues c.play_cost) := by
  constructor
  · unfold total_discount_for_card
    exact min_le_right _ _
  · intro eff
    by_cases hd : total_discount_for_card g p c ≤ 0
    · have heff : eff = c.play_cost := by
        simp only [eff, discounted_cost, if_pos hd]
      refine ⟨Or.inl heff, ?_, ?_, ?_⟩ <;> simp [heff]
    · have heff : eff = discountFirstRes RES c.play_cost := by
        simp only [eff, discounted_cost, if_neg hd]
      rw [discountFirstRes_spec] at heff
      cases hfind : RES.find? (fun k => decide (dGetI c.play_cost k > 0)) with
      | none =>
        rw [hfind] at heff
        refine ⟨Or.inl heff, ?_, ?_, ?_⟩ <;> simp [heff]
      | some k0 =>
        rw [hfind] at heff
        simp only at heff
        have hk0pos : dGetI c.play_cost k0 > 0 := by
          have := List.find?_some hfind
          simpa using this
        have hget : c.play_cost.get? k0 = some (dGetI c.play_cost k0) :=
          dGetI_pos_get? _ _ hk0pos
        have hgetset : (c.play_cost.set k0 (dGetI c.play_cost k0 - 1)).get? k0
            = some (dGetI c.play_cost k0 - 1) := dict_get?_set_self _ _ _
        have hsetI : dGetI (c.play_cost.set k0 (dGetI c.play_cost k0 - 1)) k0
            = dGetI c.play_cost k0 - 1 := dGetI_of_get? _ _ _ hgetset
        have hmem0 : k0 ∈ c.play_cost.keys := by
          have := dict_get?_mem _ _ _ hget
          exact List.mem_map.mpr ⟨_, this, rfl⟩
        have hnodupset : (c.play_cost.set k0 (dGetI c.play_cost k0 - 1)).keys.Nodup := by
          rw [dict_keys_set_of_mem _ _ _ hmem0]
          exact hnodup
        by_cases hone : dGetI c.play_cost k0 - 1 ≤ 0
        · have heff2 : eff = (c.play_cost.set k0 (dGetI c.play_cost k0 - 1)).del k0 := by
            rw [heff, if_pos (by rw [hsetI]; exact hone)]
          have hv1 : dGetI c.play_cost k0 = 1 := by omega
          have hgeff : eff.get? k0 = none := by
            rw [heff2]
            exact dict_get?_del_self_of_nodup _ _ hnodupset
          refine ⟨Or.inr ⟨k0, rfl, ?_, ?_, ?_⟩, ?_, ?_, ?_⟩
          · rw [dGetI_of_get?_none _ _ hgeff, hv1]
            omega
          · intro k hk
            have hq : eff.get? k = c.play_cost.get? k := by
              rw [heff2, dict_get?_del_ne _ _ _ hk, dict_get?_set_ne _ _ _ _ hk]
            exact dGetI_eq_of_get?_eq _ _ _ hq
          · simp [Dict.hasKey, hgeff, hv1]
          · intro k hk
            by_cases hkk : k = k0
            · subst hkk
              rw [dGetI_of_get?_none _ _ hgeff]
            · have hq : eff.get? k = c.play_cost.get? k := by
                rw [heff2, dict_get?_del_ne _ _ _ hkk, dict_get?_set_ne _ _ _ _ hkk]
              rw [dGetI_eq_of_get?_eq _ _ _ hq]
              exact hk
          · rw [heff2, sumValues_del _ _ _ hgetset,
              sumValues_set _ _ _ _ hget]
            omega
          · rw [heff2, sumValues_del _ _ _ hgetset,
              sumValues_set _ _ _ _ hget]
            omega
        · have heff2 : eff = c.play_cost.set k0 (dGetI c.play_cost k0 - 1) := by
            rw [heff, if_neg (by rw [hsetI]; exact hone)]
          refine ⟨Or.inr ⟨k0, rfl, ?_, ?_, ?_⟩, ?_, ?_, ?_⟩
          · rw [heff2]
            exact hsetI
          · intro k hk
            have hq : eff.get? k = c.play_cost.get? k := by
              rw [heff2, dict_get?_set_ne _ _ _ _ hk]
            exact dGetI_eq_of_get?_eq _ _ _ hq
          · have hne1 : dGetI c.play_cost k0 ≠ 1 := by omega
            simp [Dict.hasKey, heff2, hgetset, hne1]
          · intro k hk
            by_cases hkk : k = k0
            · subst hkk
              rw [heff2, hsetI]
              omega
            · have hq : eff.get? k = c.play_cost.get? k := by
                rw [heff2, dict_get?_set_ne _ _ _ _ hkk]
              rw [dGetI_eq_of_get?_eq _ _ _ hq]
              exact hk
          · rw [heff2, sumValues_set _ _ _ _ hget]
            omega
          · rw [heff2, sumValues_set _ _ _ _ hget]
            omega

/-- C2 witness: a card whose type matches two discount conditions at once
(slot 2 chosen type Farm and slot 5 Farm) still loses exactly one unit,
off the first positive entry (ash here, since its plasma entry is 0). -/
theorem C2_discount_witness :
    (let p : PlayerState := { id := 0, mat := [(2, "farm1"), (5, "farm1")] }
     let g : GameState :=
       { cfg := {}, rng := ⟨0⟩, cards := [("farm1", cardFarm)], players := [p] }
     let c : Card := { id := "x", name := "X", type_ := "Farm",
                       play_cost := [("ash", 2), ("berry", 1)] }
     total_discount_for_card g p c = 1 ∧
     discounted_cost c (total_discount_for_card g p c) = [("ash", 1), ("berry", 1)] ∧
     c.play_cost.keys.Nodup) := by
  refine ⟨rfl, rfl, by decide⟩

/-- C2 witness application: the general theorem instantiated at the
witness card. -/
theorem C2_discount_witness_apply :
    (let p : PlayerState := { id := 0, mat := [(2, "farm1"), (5, "farm1")] }
     let g : GameState :=
       { cfg := {}, rng := ⟨0⟩, cards := [("farm1", cardFarm)], players := [p] }
     let c : Card := { id := "x", name := "X", type_ := "Farm",
                       play_cost := [("ash", 2), ("berry", 1)] }
     total_discount_for_card g p c ≤ 1) :=
  (C2_discount_single_unit_priority_order _ _ _ (by decide)).1

/-! ## Atomic payment (claim C1) -/

/-- C1: the claim says an unpayable action applied via `apply_action`
leaves the state completely unchanged (payment is atomic). At `c1Game`
the VP:1 play action passes the legality check (`_can_pay_with_choice`
checks the fixed part and the choice part against the same initial
resources), yet payment fails midway: the fixed part (plasma 1, shards 1)
is deducted, the pay-one-of unit then finds nothing to pay with, and
`_act_play` only restores the token (at hand position 0), not the
resources — the failed action mutates state. -/
theorem C1_unpayable_vp_play_mutates_state :
    (legal_actions c1Game 0).contains (.play 0 false none) = true ∧
    ((apply_action c1Game 0 (.play 0 false none)).player 0).resources ≠
      (c1Game.player 0).resources ∧
    ((apply_action c1Game 0 (.play 0 false none)).player 0).hand = ["VP:1"] ∧
    ((apply_action c1Game 0 (.play 0 false none)).player 0).vp = 0 ∧
    dGetI ((apply_action c1Game 0 (.play 0 false none)).player 0).resources "plasma" = 0 ∧
    dGetI ((apply_action c1Game 0 (.play 0 false none)).player 0).resources "shards" = 0 := by
  refine ⟨rfl, by decide, rfl, rfl, rfl, rfl⟩

/-! ## Resource-token play (claim C3) -/

/-- C3 counterexample: the claim says `legal_actions` offers a play
action for every `RES:` token in hand, playing it adding 1 to the named
counter and discarding the token. At `c3Game` (hand `["RES:plasma"]`)
the legal actions are only the VP-pile buy (affordable through the token)
and `pass` — no play action — and applying the play action anyway is a
no-op (the token falls through to the library-card branch and fails the
card lookup). -/
theorem C3_resource_token_not_playable_at_c3Game :
    legal_actions c3Game 0 = [.buyVp 1, .passAct] ∧
    apply_action c3Game 0 (.play 0 false none) = c3Game := by
  exact ⟨rfl, rfl⟩

lemma pyStartsWith_RES_not_VP (s : String) (h : pyStartsWith s "RES:" = true) :
    pyStartsWith s "VP:" = false := by
  unfold pyStartsWith at h ⊢
  obtain ⟨data⟩ := s
  match data with
  | [] => exact absurd h (by decide)
  | ch :: rest =>
    have hR : ("RES:".data) = ['R', 'E', 'S', ':'] := rfl
    have hV : ("VP:".data) = ['V', 'P', ':'] := rfl
    rw [hR] at h
    rw [hV]
    simp only [listLeadsWith, Bool.and_eq_true, decide_eq_true_eq] at h
    obtain ⟨hch, _⟩ := h
    subst hch
    simp [listLeadsWith]

/-- C3 (amended): a `RES:` resource token in hand is never offered as a
play action by `legal_actions`, and `_act_play` on it is a no-op: the
token falls through the VP branch (its prefix is not `VP:`) into the
library-card branch and fails the card lookup. In this engine generation
resource tokens are consumed only as payment (mixed counter-plus-token
payment), never played for +1 income and a discard. -/
theorem C3_amended_resource_tokens_not_playable
    (g : GameState) (pid : Nat) (i : Nat)
    (htok : pyStartsWith ((g.player pid).hand.getD i "") "RES:" = true)
    (hcards : g.cards.get? ((g.player pid).hand.getD i "") = none) :
    (∀ toMat slot, Action.play (i : Int) toMat slot ∉ legal_actions g pid) ∧
    (∀ toMat slot, apply_action g pid (.play (i : Int) toMat slot) = g) := by
  have hvpf := pyStartsWith_RES_not_VP _ htok
  constructor
  · intro toMat slot hmem
    simp only [legal_actions, _legal_buy_vp, List.mem_append] at hmem
    rcases hmem with ((((hin | hin) | (hin | hin)) | hin) | hin)
    · rcases List.mem_flatMap.mp hin with ⟨j, hj, hjin⟩
      by_cases hvpJ : pyStartsWith ((g.player pid).hand.getD j "") "VP:" = true
      · simp only [hvpJ, if_true] at hjin
        split at hjin
        · simp only [List.mem_singleton, Action.play.injEq] at hjin
          obtain ⟨hij, _, _⟩ := hjin
          have hij' : i = j := by omega
          subst hij'
          rw [hvpJ] at hvpf
          exact absurd hvpf (by simp)
        · exact absurd hjin (List.not_mem_nil _)
      · rw [if_neg (by simpa using hvpJ)] at hjin
        cases hc : g.cards.get? ((g.player pid).hand.getD j "") with
        | none => rw [hc] at hjin; exact absurd hjin (List.not_mem_nil _)
        | some c =>
          rw [hc] at hjin
          have hij : i = j := by
            rcases List.mem_append.mp hjin with h1 | h1
            · split at h1
              · simp only [List.mem_singleton, Action.play.injEq] at h1
                omega
              · exact absurd h1 (List.not_mem_nil _)
            · split at h1
              · rcases List.mem_map.mp h1 with ⟨sl, _, hsl⟩
                obtain ⟨hij, _, _⟩ := Action.play.inj hsl.symm
                omega
              · exact absurd h1 (List.not_mem_nil _)
          subst hij
          rw [hcards] at hc
          exact absurd hc (by simp)
    · rcases List.mem_flatMap.mp hin with ⟨j, hj, hjin⟩
      cases hc : g.cards.get? (g.pool.getD j "") with
      | none => rw [hc] at hjin; exact absurd hjin (List.not_mem_nil _)
      | some c =>
        rw [hc] at hjin
        repeat' split at hjin
        all_goals simp_all
    · split at hin
      · simp at hin
      · exact absurd hin (List.not_mem_nil _)
    · split at hin
      · simp at hin
      · exact absurd hin (List.not_mem_nil _)
    · split at hin
      · rcases List.mem_flatMap.mp hin with ⟨kv, _, hkv⟩
        split at hkv
        · simp at hkv
        · exact absurd hkv (List.not_mem_nil _)
      · exact absurd hin (List.not_mem_nil _)
    · simp at hin
  · intro toMat slot
    simp only [apply_action, _act_play]
    by_cases hl : i < (g.player pid).hand.length
    · have hguard : (decide ((i : Int) < 0) ||
          decide ((i : Int) ≥ ((g.player pid).hand.length : Int))) = false := by
        simp only [Bool.or_eq_false_iff, decide_eq_false_iff_not]
        omega
      simp only [hguard, Bool.false_eq_true, if_false, Int.toNat_natCast, hvpf, hcards]
    · have hguard : (decide ((i : Int) < 0) ||
          decide ((i : Int) ≥ ((g.player pid).hand.length : Int))) = true := by
        simp only [Bool.or_eq_true, decide_eq_true_eq]
        omega
      simp only [hguard, if_true]

/-- C3 witness: the amended theorem applied at `c3Game`. -/
theorem C3_amended_witness :
    (∀ toMat slot, Action.play ((0 : Nat) : Int) toMat slot ∉ legal_actions c3Game 0) ∧
    (∀ toMat slot, apply_action c3Game 0 (.play ((0 : Nat) : Int) toMat slot) = c3Game) :=
  C3_amended_resource_tokens_not_playable c3Game 0 0 rfl rfl

/-! ## Pool backfill (claim C4) -/

/-- C4: the claim says a pool buy backfills the market window from the
supply whenever supply cards remain. The payment, discard placement and
window removal all happen, but `engine/setup.py` defines no
`refill_pool`, so the `from scarecrovv.engine.setup import refill_pool`
inside `_act_buy_pool` raises ImportError, swallowed by the bare
`except`: at `c4Game` the window shrinks to empty while the supply still
holds a card. -/
theorem C4_buy_pool_never_backfills :
    setupModuleTopLevelDefs.contains "refill_pool" = false ∧
    (apply_action c4Game 0 (.buyPool 0)).pool = [] ∧
    (apply_action c4Game 0 (.buyPool 0)).supply = ["cardB"] ∧
    ((apply_action c4Game 0 (.buyPool 0)).player 0).discard = ["cardA"] ∧
    dGetI ((apply_action c4Game 0 (.buyPool 0)).player 0).resources "plasma" = 2 := by
  exact ⟨rfl, rfl, rfl, rfl, rfl⟩

/-! ## Hand-size delta (claim C5) -/

/-- C5: the claim says playing a card tagged
`hand_size_delta_next_round:+2` makes the next round's draw-up target
`base_hand_size + 2`. In the code the tag is inert three times over:
`_act_play` never resolves effect tags, `apply_global_effects` only logs
the delta (its own comment says "store on g for next round" but no store
happens), and `end_of_round` zeroes every pending delta before
`start_of_round` reads it. At `c5Game` (base hand size 5, deck of 10),
after playing the card and crossing the round boundary the hand holds 5
cards, not 7, and the pending-delta map never left 0. -/
theorem C5_hand_size_delta_tag_is_inert :
    (legal_actions c5Game 0).contains (.play 0 false none) = true ∧
    (apply_global_effects c5Game 0 "hand_size_delta_next_round:+2").hand_size_delta_next_round
      = [(0, 0)] ∧
    c5AfterPlay.hand_size_delta_next_round = [(0, 0)] ∧
    ((c5AfterPlay.player 0).discard = ["delta1"]) ∧
    ((start_of_round (end_of_round c5AfterPlay)).player 0).hand.length = 5 := by
  exact ⟨rfl, rfl, rfl, rfl, rfl⟩

/-! ## Zone exclusivity on mat plays (claim C6) -/

/-- C6 counterexample: the claim says a card played to a mat slot
occupies that slot and does not simultaneously appear in the same
player's discard pile. `_act_play`'s mat branch places the id on the slot
and then also appends it to the discard (source comment: "You've been
discarding the card id even for mat plays (keeps cycling)"): after
playing `farm1` to slot 5 the id sits in both zones. -/
theorem C6_mat_play_also_discards_at_c6Game :
    (legal_actions c6Game 0).contains (.play 0 true (some 5)) = true ∧
    ((apply_action c6Game 0 (.play 0 true (some 5))).player 0).mat.get? 5 = some "farm1" ∧
    "farm1" ∈ ((apply_action c6Game 0 (.play 0 true (some 5))).player 0).discard := by
  refine ⟨rfl, rfl, by decide⟩

/-- C6 (amended): whenever a playable library card is played to a free,
nonzero mat slot, the card id occupies that slot AND the id is also
appended to the player's discard pile — mat plays keep a cycling copy in
discard (source comment: "You've been discarding the card id even for mat
plays"), so a card id can appear in two zones of the same player at
once. -/
theorem C6_amended_mat_play_occupies_slot_and_discards
    (g : GameState) (pid : Nat) (i : Nat) (s : Int) (c : Card)
    (hpid : pid < g.players.length)
    (hlen : i < (g.player pid).hand.length)
    (hvp : pyStartsWith ((g.player pid).hand.getD i "") "VP:" = false)
    (htok : g.cards.get? ((g.player pid).hand.getD i "") = some c)
    (hmat : c.can_play_on_mat = true)
    (hs0 : s ≠ 0)
    (hfree : (g.player pid).mat.hasKey s = false)
    (hpay : _can_pay_mixed (g.player pid)
        (discounted_cost c (total_discount_for_card g (g.player pid) c)) = true) :
    ((apply_action g pid (.play (i : Int) true (some s))).player pid).mat.get? s
      = some c.id ∧
    c.id ∈ ((apply_action g pid (.play (i : Int) true (some s))).player pid).discard := by
  have hguard : (decide ((i : Int) < 0) ||
      decide ((i : Int) ≥ ((g.player pid).hand.length : Int))) = false := by
    simp only [Bool.or_eq_false_iff, decide_eq_false_iff_not]
    omega
  simp only [apply_action, _act_play, hguard, Bool.false_eq_true, if_false,
    Int.toNat_natCast, hvp, htok]
  simp only [libPlayCase, hpay, Bool.not_true, Bool.false_eq_true, if_false,
    pay_mixed_mat, hmat, hfree, hs0, Bool.not_false, Bool.and_true, Bool.true_and,
    decide_eq_true_eq, ne_eq, not_false_eq_true, if_true,
    Option.getD_some]
  constructor
  · rw [libTelemetry_player_mat, libMatCase_player_mat, dict_get?_set_self]
    · simp [setPlayer_players_length, hpid]
    · simp [libMatCase_players_length, setPlayer_players_length, hpid]
  · rw [libTelemetry_player_discard, libMatCase_player_discard]
    · simp
    · simp [setPlayer_players_length, hpid]
    · simp [libMatCase_players_length, setPlayer_players_length, hpid]

/-- C6 witness: the amended theorem applied at `c6Game`. -/
theorem C6_amended_witness :
    ((apply_action c6Game 0 (.play ((0 : Nat) : Int) true (some 5))).player 0).mat.get? 5
      = some cardFarm.id ∧
    cardFarm.id ∈
      ((apply_action c6Game 0 (.play ((0 : Nat) : Int) true (some 5))).player 0).discard :=
  C6_amended_mat_play_occupies_slot_and_discards c6Game 0 0 5 cardFarm
    (by decide) (by decide) rfl rfl rfl (by decide) rfl rfl

/-! ## Field occupancy and capacity (claim C7) -/

@[simp]
lemma emit_field_occupancy (g : GameState) (e : Event) :
    (g.emit e).field_occupancy = g.field_occupancy := rfl

@[simp]
lemma emit_field_capacity (g : GameState) (e : Event) :
    (g.emit e).field_capacity = g.field_capacity := rfl

@[simp]
lemma setPlayer_field_occupancy (g : GameState) (pid : Nat) (p : PlayerState) :
    (g.setPlayer pid p).field_occupancy = g.field_occupancy := rfl

@[simp]
lemma setPlayer_field_capacity (g : GameState) (pid : Nat) (p : PlayerState) :
    (g.setPlayer pid p).field_capacity = g.field_capacity := rfl

lemma claim_initiative_field_occupancy (g : GameState) (pid : Nat) :
    (g.claim_initiative pid).field_occupancy = g.field_occupancy := by
  unfold GameState.claim_initiative
  cases g.initiative_pid <;> rfl

lemma claim_initiative_field_capacity (g : GameState) (pid : Nat) :
    (g.claim_initiative pid).field_capacity = g.field_capacity := by
  unfold GameState.claim_initiative
  cases g.initiative_pid <;> rfl

lemma drawAux_field_occupancy (pid : Nat) :
    ∀ (n : Nat) (g : GameState), (drawAux g pid n).field_occupancy = g.field_occupancy := by
  intro n
  induction n with
  | zero => intro g; rfl
  | succ n ih =>
    intro g
    simp only [drawAux]
    repeat' split
    all_goals simp [ih]

lemma drawAux_field_capacity (pid : Nat) :
    ∀ (n : Nat) (g : GameState), (drawAux g pid n).field_capacity = g.field_capacity := by
  intro n
  induction n with
  | zero => intro g; rfl
  | succ n ih =>
    intro g
    simp only [drawAux]
    repeat' split
    all_goals simp [ih]

lemma draw_field_occupancy (g : GameState) (pid : Nat) (n : Nat) :
    (draw g pid n).field_occupancy = g.field_occupancy :=
  drawAux_field_occupancy pid n g

lemma draw_field_capacity (g : GameState) (pid : Nat) (n : Nat) :
    (draw g pid n).field_capacity = g.field_capacity :=
  drawAux_field_capacity pid n g

lemma compost_field_occupancy (g : GameState) (pid : Nat) (idx : Nat) (r : String) :
    (compost_from_hand g pid idx r).field_occupancy = g.field_occupancy := by
  simp only [compost_from_hand]
  repeat' split
  all_goals rfl

lemma compost_field_capacity (g : GameState) (pid : Nat) (idx : Nat) (r : String) :
    (compost_from_hand g pid idx r).field_capacity = g.field_capacity := by
  simp only [compost_from_hand]
  repeat' split
  all_goals rfl

lemma draw_to_hand_size_field_occupancy (g : GameState) (pid : Nat) (t : Int) :
    (draw_to_hand_size g pid t).field_occupancy = g.field_occupancy := by
  simp only [draw_to_hand_size]
  split
  · exact draw_field_occupancy g pid _
  · rfl

lemma workerFieldEffect_field_occupancy (g : GameState) (pid : Nat) (f : String) :
    (workerFieldEffect g pid f).field_occupancy = g.field_occupancy := by
  simp only [workerFieldEffect]
  repeat' split
  all_goals
    simp [draw_field_occupancy, compost_field_occupancy, claim_initiative_field_occupancy]

lemma workerFieldEffect_field_capacity (g : GameState) (pid : Nat) (f : String) :
    (workerFieldEffect g pid f).field_capacity = g.field_capacity := by
  simp only [workerFieldEffect]
  repeat' split
  all_goals
    simp [draw_field_capacity, compost_field_capacity, claim_initiative_field_capacity]

lemma vpPlayCase_field_occupancy (g : GameState) (pid : Nat) (i : Nat) (tok : String) :
    (vpPlayCase g pid i tok).field_occupancy = g.field_occupancy := by
  simp only [vpPlayCase]
  repeat' split
  all_goals rfl

lemma vpPlayCase_field_capacity (g : GameState) (pid : Nat) (i : Nat) (tok : String) :
    (vpPlayCase g pid i tok).field_capacity = g.field_capacity := by
  simp only [vpPlayCase]
  repeat' split
  all_goals rfl

lemma libMatCase_field_occupancy (g : GameState) (pid : Nat) (c : Card) (s : Int) :
    (libMatCase g pid c s).field_occupancy = g.field_occupancy := by
  simp only [libMatCase]
  repeat' split
  all_goals simp [compost_field_occupancy]

lemma libMatCase_field_capacity (g : GameState) (pid : Nat) (c : Card) (s : Int) :
    (libMatCase g pid c s).field_capacity = g.field_capacity := by
  simp only [libMatCase]
  repeat' split
  all_goals simp [compost_field_capacity]

lemma libActiveCase_field_occupancy (g : GameState) (pid : Nat) (c : Card) :
    (libActiveCase g pid c).field_occupancy = g.field_occupancy := rfl

lemma libActiveCase_field_capacity (g : GameState) (pid : Nat) (c : Card) :
    (libActiveCase g pid c).field_capacity = g.field_capacity := rfl

lemma libTelemetry_field_occupancy (g : GameState) (pid : Nat) (c : Card) :
    (libTelemetry g pid c).field_occupancy = g.field_occupancy := by
  simp only [libTelemetry]
  split
  · rfl
  · rfl

lemma libTelemetry_field_capacity (g : GameState) (pid : Nat) (c : Card) :
    (libTelemetry g pid c).field_capacity = g.field_capacity := by
  simp only [libTelemetry]
  split
  · rfl
  · rfl

lemma libPlayCase_field_occupancy (g : GameState) (pid : Nat) (i : Nat) (c : Card)
    (toMat : Bool) (slot : Option Int) :
    (libPlayCase g pid i c toMat slot).field_occupancy = g.field_occupancy := by
  simp only [libPlayCase]
  repeat' split
  all_goals
    simp [libTelemetry_field_occupancy, libMatCase_field_occupancy,
      libActiveCase_field_occupancy]

lemma libPlayCase_field_capacity (g : GameState) (pid : Nat) (i : Nat) (c : Card)
    (toMat : Bool) (slot : Option Int) :
    (libPlayCase g pid i c toMat slot).field_capacity = g.field_capacity := by
  simp only [libPlayCase]
  repeat' split
  all_goals
    simp [libTelemetry_field_capacity, libMatCase_field_capacity,
      libActiveCase_field_capacity]

lemma act_play_field_occupancy (g : GameState) (pid : Nat) (i : Int) (toMat : Bool)
    (slot : Option Int) :
    (_act_play g pid i toMat slot).field_occupancy = g.field_occupancy := by
  simp only [_act_play]
  repeat' split
  all_goals simp [vpPlayCase_field_occupancy, libPlayCase_field_occupancy]

lemma act_play_field_capacity (g : GameState) (pid : Nat) (i : Int) (toMat : Bool)
    (slot : Option Int) :
    (_act_play g pid i toMat slot).field_capacity = g.field_capacity := by
  simp only [_act_play]
  repeat' split
  all_goals simp [vpPlayCase_field_capacity, libPlayCase_field_capacity]

lemma act_buy_pool_field_occupancy (g : GameState) (pid : Nat) (j : Int) :
    (_act_buy_pool g pid j).field_occupancy = g.field_occupancy := by
  simp only [_act_buy_pool]
  repeat' split
  all_goals rfl

lemma act_buy_pool_field_capacity (g : GameState) (pid : Nat) (j : Int) :
    (_act_buy_pool g pid j).field_capacity = g.field_capacity := by
  simp only [_act_buy_pool]
  repeat' split
  all_goals rfl

lemma act_buy_vp_field_occupancy (g : GameState) (pid : Nat) (v : Int) :
    (_act_buy_vp g pid v).field_occupancy = g.field_occupancy := by
  simp only [_act_buy_vp]
  repeat' split
  all_goals rfl

lemma act_buy_vp_field_capacity (g : GameState) (pid : Nat) (v : Int) :
    (_act_buy_vp g pid v).field_capacity = g.field_capacity := by
  simp only [_act_buy_vp]
  repeat' split
  all_goals rfl

lemma sorPlayerStep_field_occupancy (b w : Int) (g : GameState) (pid : Nat) :
    (sorPlayerStep b w g pid).field_occupancy = g.field_occupancy := by
  simp only [sorPlayerStep]
  simp [draw_to_hand_size_field_occupancy]

lemma zerosMap_occ_lookup (ks : List String) (f : String) :
    ((Dict.get? (ks.map (fun k => (k, (some 0 : Option Int)))) f).getD (some 0)).getD 0
      = (0 : Int) := by
  induction ks with
  | nil => rfl
  | cons k rest ih =>
    by_cases hk : k = f
    · simp [Dict.get?, hk]
    · simpa [Dict.get?, hk] using ih

lemma startOfRound_occVal (g : GameState) (f : String) :
    occVal (start_of_round g) f = 0 := by
  simp only [start_of_round, GameState.clear_round_occupancy, occVal, emit_field_occupancy]
  split
  · rw [foldl_proj_eq (sorPlayerStep _ _) GameState.field_occupancy
      (fun b a => sorPlayerStep_field_occupancy _ _ b a)]
    exact zerosMap_occ_lookup _ f
  · exact zerosMap_occ_lookup _ f

lemma dict_get?_of_mem_nodup {α β : Type} [DecidableEq α] (d : Dict α β)
    (kv : α × β) (hmem : kv ∈ d) (hnd : d.keys.Nodup) : d.get? kv.1 = some kv.2 := by
  induction d with
  | nil => exact absurd hmem (List.not_mem_nil _)
  | cons hd rest ih =>
    obtain ⟨a, b⟩ := hd
    rcases List.mem_cons.mp hmem with h1 | h1
    · subst h1
      simp [Dict.get?]
    · have hne : a ≠ kv.1 := by
        intro he
        have : kv.1 ∈ rest.map Prod.fst := List.mem_map.mpr ⟨kv, h1, rfl⟩
        rw [← he] at this
        exact (List.nodup_cons.mp hnd).1 this
      simp only [Dict.get?, hne, if_false]
      exact ih h1 (List.nodup_cons.mp hnd).2

/-- C7: field occupancy stays within capacity and resets at round start.
For every state, seat, action and field: (i) `apply_action` preserves
`occVal f ≤ capVal f` pointwise — the worker action is the only one that
touches occupancy and its guard admits the increment only strictly below
capacity; (ii) immediately after `start_of_round` every field's
occupancy is 0; (iii) with well-formed (duplicate-free) capacity keys, a
worker placement on `f` is offered by `legal_actions` only while
`occVal f < capVal f`; (iv) a worker placement that passes the guards
increments `occVal f` by exactly 1; (v) at or above capacity
`_act_worker` is a no-op. -/
theorem C7_occupancy_never_exceeds_capacity
    (g : GameState) (pid : Nat) (a : Action) (f : String) :
    (occVal g f ≤ capVal g f →
      occVal (apply_action g pid a) f ≤ capVal (apply_action g pid a) f) ∧
    occVal (start_of_round g) f = 0 ∧
    (g.field_capacity.keys.Nodup → Action.worker f ∈ legal_actions g pid →
      occVal g f < capVal g f) ∧
    (0 < (g.player pid).workers → occVal g f < capVal g f →
      occVal (_act_worker g pid f) f = occVal g f + 1) ∧
    (capVal g f ≤ occVal g f → _act_worker g pid f = g) := by
  refine ⟨?_, startOfRound_occVal g f, ?_, ?_, ?_⟩
  · intro h
    cases a with
    | play i toMat slot =>
      simpa only [apply_action, occVal, capVal, act_play_field_occupancy,
        act_play_field_capacity] using h
    | buyPool j =>
      simpa only [apply_action, occVal, capVal, act_buy_pool_field_occupancy,
        act_buy_pool_field_capacity] using h
    | buyVp v =>
      simpa only [apply_action, occVal, capVal, act_buy_vp_field_occupancy,
        act_buy_vp_field_capacity] using h
    | passAct =>
      simpa only [apply_action, occVal, capVal, emit_field_occupancy,
        emit_field_capacity] using h
    | worker f0 =>
      simp only [apply_action, _act_worker]
      split
      · exact h
      · split
        · exact h
        · simp only [occVal, capVal, emit_field_occupancy, emit_field_capacity,
            setPlayer_field_occupancy, setPlayer_field_capacity,
            workerFieldEffect_field_occupancy, workerFieldEffect_field_capacity] at h ⊢
          by_cases hf : f0 = f
          · subst hf
            rw [dict_get?_set_self]
            simp only [Option.getD_some]
            omega
          · rw [dict_get?_set_ne _ _ _ _ (fun he => hf he.symm)]
            exact h
  · intro hnd hmem
    simp only [legal_actions, _legal_buy_vp, List.mem_append] at hmem
    rcases hmem with ((((hin | hin) | (hin | hin)) | hin) | hin)
    · rcases List.mem_flatMap.mp hin with ⟨j, hj, hjin⟩
      repeat' split at hjin
      all_goals simp_all
    · rcases List.mem_flatMap.mp hin with ⟨j, hj, hjin⟩
      repeat' split at hjin
      all_goals simp_all
    · split at hin
      · simp at hin
      · exact absurd hin (List.not_mem_nil _)
    · split at hin
      · simp at hin
      · exact absurd hin (List.not_mem_nil _)
    · split at hin
      · rcases List.mem_flatMap.mp hin with ⟨kv, hkvmem, hkvin⟩
        split at hkvin
        · rename_i hlt
          simp only [List.mem_singleton, Action.worker.injEq] at hkvin
          subst hkvin
          have hcap := dict_get?_of_mem_nodup g.field_capacity kv hkvmem hnd
          simp only [occVal, capVal, Dict.getD, hcap, Option.getD_some]
          exact hlt
        · exact absurd hkvin (List.not_mem_nil _)
      · exact absurd hin (List.not_mem_nil _)
    · simp at hin
  · intro hw hlt
    simp only [occVal, capVal] at hlt
    simp only [_act_worker, occVal]
    split
    · omega
    · split
      · omega
      · simp only [emit_field_occupancy, setPlayer_field_occupancy,
          workerFieldEffect_field_occupancy, dict_get?_set_self, Option.getD_some]
  · intro hge
    simp only [occVal, capVal] at hge
    simp only [_act_worker]
    split
    · rfl
    · rfl

/-- C7 witness: the theorem applied at `c7Game` (field `plasma`:
capacity 2, occupancy 1, one worker) and, for the at-capacity no-op
part, at the absent field `ash` (capacity 0, occupancy 0). -/
theorem C7_occupancy_witness :
    (occVal (apply_action c7Game 0 (Action.worker "plasma")) "plasma"
      ≤ capVal (apply_action c7Game 0 (Action.worker "plasma")) "plasma") ∧
    occVal (start_of_round c7Game) "plasma" = 0 ∧
    occVal c7Game "plasma" < capVal c7Game "plasma" ∧
    occVal (_act_worker c7Game 0 "plasma") "plasma" = occVal c7Game "plasma" + 1 ∧
    _act_worker c7Game 0 "ash" = c7Game := by
  obtain ⟨h1, h2, h3, h4, h5⟩ :=
    C7_occupancy_never_exceeds_capacity c7Game 0 (Action.worker "plasma") "plasma"
  exact ⟨h1 (by decide), h2, h3 (by decide) (by decide), h4 (by decide) (by decide),
    (C7_occupancy_never_exceeds_capacity c7Game 0 (Action.worker "ash") "ash").2.2.2.2
      (by decide)⟩

/-! ## Resource nonnegativity (claim C10) -/

lemma resTok_data (k : String) : (resTok k).data = 'R' :: 'E' :: 'S' :: ':' :: k.data := by
  cases k with
  | mk data => rfl

lemma resTok_inj (a b : String) (h : resTok a = resTok b) : a = b := by
  have hd := congrArg String.data h
  rw [resTok_data, resTok_data] at hd
  simp only [List.cons.injEq, true_and] at hd
  cases a
  cases b
  exact congrArg String.mk (by simpa using hd)

lemma vp_tok_ne_resTok (tok : String) (h : pyStartsWith tok "VP:" = true) (k : String) :
    tok ≠ resTok k := by
  intro he
  rw [he] at h
  unfold pyStartsWith at h
  rw [show ("VP:".data) = ['V', 'P', ':'] from rfl, resTok_data] at h
  simp [listLeadsWith] at h

lemma resTok_startsWith_RES (k : String) : pyStartsWith (resTok k) "RES:" = true := by
  unfold pyStartsWith
  rw [show ("RES:".data) = ['R', 'E', 'S', ':'] from rfl, resTok_data]
  simp [listLeadsWith]

lemma removeTokAux_fst_min (tok : String) :
    ∀ (ts : List String) (n : Nat),
      (removeTokAux ts tok n).1 = min (ts.countP (fun t => t = tok)) n := by
  intro ts
  induction ts with
  | nil => intro n; cases n <;> simp [removeTokAux]
  | cons t rest ih =>
    intro n
    cases n with
    | zero => simp [removeTokAux]
    | succ m =>
      by_cases ht : t = tok
      · subst ht
        simp only [removeTokAux, if_pos rfl]
        rw [ih]
        simp only [List.countP_cons]
        simp
        omega
      · simp only [removeTokAux, ht, if_false, List.countP_cons]
        rw [ih]
        simp [ht]

lemma removeTokAux_snd_countP (tok tok2 : String) (hne : tok2 ≠ tok) :
    ∀ (ts : List String) (n : Nat),
      ((removeTokAux ts tok n).2).countP (fun t => t = tok2)
        = ts.countP (fun t => t = tok2) := by
  intro ts
  induction ts with
  | nil => intro n; cases n <;> simp [removeTokAux]
  | cons t rest ih =>
    intro n
    cases n with
    | zero => simp [removeTokAux]
    | succ m =>
      by_cases ht : t = tok
      · simp only [removeTokAux, ht, if_true]
        rw [ih]
        subst ht
        simp [List.countP_cons, Ne.symm hne]
      · simp only [removeTokAux, ht, if_false, List.countP_cons]
        rw [ih]

lemma removeTok_fst_nat (p : PlayerState) (k : String) (n : Int) (hn : 0 < n) :
    (_remove_res_tokens_from_hand p k n).1
      = min (_count_res_tokens_in_hand p k) n.toNat := by
  unfold _remove_res_tokens_from_hand
  rw [if_neg (by omega)]
  exact removeTokAux_fst_min (resTok k) p.hand n.toNat

lemma removeTok_count_other (p : PlayerState) (k k2 : String) (n : Int) (hne : k2 ≠ k) :
    _count_res_tokens_in_hand ((_remove_res_tokens_from_hand p k n).2) k2
      = _count_res_tokens_in_hand p k2 := by
  unfold _remove_res_tokens_from_hand
  split
  · rfl
  · exact removeTokAux_snd_countP (resTok k) (resTok k2)
      (fun h => hne (resTok_inj _ _ h)) p.hand n.toNat

lemma countP_eraseIdx (q : String → Bool) :
    ∀ (ts : List String) (i : Nat), i < ts.length → q (ts.getD i "") = false →
      (ts.eraseIdx i).countP q = ts.countP q := by
  intro ts
  induction ts with
  | nil => intro i hi hq; simp at hi
  | cons t rest ih =>
    intro i hi hq
    cases i with
    | zero =>
      simp only [List.getD_cons_zero] at hq
      simp [List.eraseIdx, List.countP_cons, hq]
    | succ j =>
      simp only [List.getD_cons_succ] at hq
      simp only [List.eraseIdx, List.countP_cons]
      rw [ih j (by simpa using hi) hq]

lemma avail_eraseIdx (p : PlayerState) (i : Nat) (hi : i < p.hand.length)
    (hne : ∀ k, p.hand.getD i "" ≠ resTok k) (k : String) :
    _available_amount { p with hand := p.hand.eraseIdx i } k
      = _available_amount p k := by
  unfold _available_amount _count_res_tokens_in_hand
  simp only []
  rw [countP_eraseIdx _ p.hand i hi (by simpa [List.getD] using hne k)]

lemma dict_keys_del_sublist {α β : Type} [DecidableEq α] (d : Dict α β) (k : α) :
    (Dict.keys (d.del k)).Sublist (Dict.keys d) := by
  induction d with
  | nil => simp [Dict.del]
  | cons kv rest ih =>
    obtain ⟨a, b⟩ := kv
    by_cases hk : a = k
    · simp only [Dict.del, hk, if_true, Dict.keys, List.map_cons]
      exact List.sublist_cons_of_sublist _ (List.Sublist.refl _)
    · simp only [Dict.del, hk, if_false, Dict.keys, List.map_cons]
      exact List.Sublist.cons₂ _ ih

lemma dGetI_pos_mem_keys (d : Dict String Int) (k : String) (h : dGetI d k > 0) :
    k ∈ d.keys := by
  have hg := dGetI_pos_get? d k h
  have hm := dict_get?_mem d k _ hg
  exact List.mem_map.mpr ⟨_, hm, rfl⟩

lemma discountFirstRes_keys_nodup (ks : List String) (cost : Dict String Int)
    (h : cost.keys.Nodup) : (Dict.keys (discountFirstRes ks cost)).Nodup := by
  induction ks with
  | nil => exact h
  | cons k rest ih =>
    simp only [discountFirstRes]
    split
    · split
      · refine List.Nodup.sublist (dict_keys_del_sublist _ _) ?_
        rw [dict_keys_set_of_mem _ _ _ (dGetI_pos_mem_keys _ _ (by assumption))]
        exact h
      · rw [dict_keys_set_of_mem _ _ _ (dGetI_pos_mem_keys _ _ (by assumption))]
        exact h
    · exact ih

lemma discounted_cost_keys_nodup (c : Card) (disc : Int)
    (h : c.play_cost.keys.Nodup) : (Dict.keys (discounted_cost c disc)).Nodup := by
  unfold discounted_cost
  split
  · exact h
  · exact discountFirstRes_keys_nodup RES c.play_cost h

lemma dict_nonneg_set (d : Dict String Int) (k : String) (v : Int)
    (h : ∀ kv ∈ d, 0 ≤ kv.2) (hv : 0 ≤ v) : ∀ kv ∈ d.set k v, 0 ≤ kv.2 := by
  intro kv hm
  rcases dict_mem_set d k v kv hm with h1 | h1
  · exact h kv h1
  · rw [h1]
    exact hv

lemma can_pay_mixed_forall (p : PlayerState) (cost : Dict String Int)
    (h : _can_pay_mixed p cost = true) :
    ∀ kv ∈ cost, kv.2 ≤ _available_amount p kv.1 := by
  intro kv hm
  have hx := (List.all_eq_true.mp h) kv hm
  simpa [ge_iff_le] using hx

lemma payMixedStep_resources_get?_ne (p : PlayerState) (kv : String × Int) (k2 : String)
    (hne : k2 ≠ kv.1) :
    (payMixedStep true p kv).resources.get? k2 = p.resources.get? k2 := by
  simp only [payMixedStep, eq_self_iff_true, if_true]
  repeat' split
  all_goals simp [removeTok_snd_resources, dict_get?_set_ne _ _ _ _ hne]

lemma payMixedStep_count (p : PlayerState) (kv : String × Int) (k2 : String)
    (hne : k2 ≠ kv.1) :
    _count_res_tokens_in_hand (payMixedStep true p kv) k2
      = _count_res_tokens_in_hand p k2 := by
  simp only [payMixedStep, eq_self_iff_true, if_true]
  repeat' split
  · rfl
  · exact removeTok_count_other p kv.1 k2 kv.2 hne
  · exact removeTok_count_other p kv.1 k2 kv.2 hne

lemma payMixedStep_avail_ne (p : PlayerState) (kv : String × Int) (k2 : String)
    (hne : k2 ≠ kv.1) :
    _available_amount (payMixedStep true p kv) k2 = _available_amount p k2 := by
  unfold _available_amount
  rw [dGetI_eq_of_get?_eq _ _ _ (payMixedStep_resources_get?_ne p kv k2 hne),
    payMixedStep_count p kv k2 hne]

lemma payMixedStep_resources_tokens (p : PlayerState) (kv : String × Int)
    (hneed : ¬ kv.2 ≤ 0) :
    (payMixedStep true p kv).resources
      = (if kv.2 - ((_remove_res_tokens_from_hand p kv.1 kv.2).1 : Int) > 0
         then p.resources.set kv.1
           (dGetI p.resources kv.1
             - (kv.2 - ((_remove_res_tokens_from_hand p kv.1 kv.2).1 : Int)))
         else p.resources) := by
  simp only [payMixedStep, eq_self_iff_true, if_true, if_neg hneed]
  split
  · simp [removeTok_snd_resources]
  · simp [removeTok_snd_resources]

lemma payMixedStep_nonneg (p : PlayerState) (kv : String × Int)
    (havail : kv.2 ≤ _available_amount p kv.1) (hnn : resNonneg p) :
    resNonneg (payMixedStep true p kv) := by
  by_cases hneed : kv.2 ≤ 0
  · simp only [payMixedStep, if_pos hneed]
    exact hnn
  · intro kv' hm
    rw [payMixedStep_resources_tokens p kv hneed] at hm
    by_cases hrem : kv.2 - ((_remove_res_tokens_from_hand p kv.1 kv.2).1 : Int) > 0
    · rw [if_pos hrem] at hm
      rcases dict_mem_set _ _ _ _ hm with h1 | h1
      · exact hnn kv' h1
      · rw [h1]
        have hfst := removeTok_fst_nat p kv.1 kv.2 (by omega)
        unfold _available_amount at havail
        show 0 ≤ dGetI p.resources kv.1
          - (kv.2 - ((_remove_res_tokens_from_hand p kv.1 kv.2).1 : Int))
        omega
    · rw [if_neg hrem] at hm
      exact hnn kv' hm

lemma pay_mixed_cons (p : PlayerState) (kv : String × Int) (rest : Dict String Int)
    (b : Bool) :
    _pay_mixed p (kv :: rest) b = _pay_mixed (payMixedStep b p kv) rest b := rfl

lemma pay_mixed_nonneg :
    ∀ (cost : Dict String Int) (p : PlayerState),
      (Dict.keys cost).Nodup →
      (∀ kv ∈ cost, kv.2 ≤ _available_amount p kv.1) →
      resNonneg p → resNonneg (_pay_mixed p cost true) := by
  intro cost
  induction cost with
  | nil => intro p _ _ h; exact h
  | cons kv rest ih =>
    intro p hnd hcan hnn
    rw [pay_mixed_cons]
    have hnd' : (Dict.keys rest).Nodup ∧ kv.1 ∉ Dict.keys rest := by
      simp only [Dict.keys, List.map_cons, List.nodup_cons] at hnd
      exact ⟨hnd.2, hnd.1⟩
    refine ih (payMixedStep true p kv) hnd'.1 ?_
      (payMixedStep_nonneg p kv (hcan kv (List.mem_cons_self _ _)) hnn)
    intro kv' hm
    have hne : kv'.1 ≠ kv.1 := fun he =>
      hnd'.2 (he ▸ List.mem_map.mpr ⟨kv', hm, rfl⟩)
    rw [payMixedStep_avail_ne p kv kv'.1 hne]
    exact hcan kv' (List.mem_cons_of_mem _ hm)

lemma chooseChoiceStep_avail (p : PlayerState) (best : Option ((Int × Int) × String))
    (rk : String)
    (h : ∀ pr, best = some pr → 1 ≤ _available_amount p pr.2) :
    ∀ pr, chooseChoiceStep p best rk = some pr → 1 ≤ _available_amount p pr.2 := by
  intro pr hpr
  simp only [chooseChoiceStep] at hpr
  split at hpr
  · exact h pr hpr
  · split at hpr
    · cases hpr
      show (1 : Int) ≤ _available_amount p rk
      omega
    · split at hpr
      · cases hpr
        show (1 : Int) ≤ _available_amount p rk
        omega
      · cases hpr
        exact h _ rfl

lemma choose_choice_avail (p : PlayerState) (choices : List String) (rk : String)
    (h : _choose_choice_key_to_pay p choices = some rk) :
    1 ≤ _available_amount p rk := by
  unfold _choose_choice_key_to_pay at h
  have haux : ∀ (l : List String) (acc : Option ((Int × Int) × String)),
      (∀ pr, acc = some pr → 1 ≤ _available_amount p pr.2) →
      ∀ pr, l.foldl (chooseChoiceStep p) acc = some pr →
        1 ≤ _available_amount p pr.2 := by
    intro l
    induction l with
    | nil => intro acc hacc pr hpr; exact hacc pr hpr
    | cons c rest ih =>
      intro acc hacc pr hpr
      rw [List.foldl_cons] at hpr
      exact ih _ (chooseChoiceStep_avail p acc c hacc) pr hpr
  cases hf : choices.foldl (chooseChoiceStep p) none with
  | none => rw [hf] at h; simp at h
  | some pr =>
    rw [hf] at h
    have hpr2 : pr.2 = rk := by
      cases pr
      simpa using h
    have := haux choices none (by intro pr hpr; cases hpr) pr hf
    rwa [hpr2] at this

lemma vp_play_cost_fixed_nodup (g : GameState)
    (h1 : (Dict.keys g.cfg.vp1_play_cost.fixed).Nodup)
    (h3 : (Dict.keys g.cfg.vp3_play_cost.fixed).Nodup) (v : Int) :
    (Dict.keys (_vp_play_cost g v).fixed).Nodup := by
  unfold _vp_play_cost
  repeat' split
  all_goals first
    | exact h1
    | exact h3
    | simp [Dict.keys]

lemma pay_with_choice_nonneg (p : PlayerState) (cost : ChoiceCost)
    (hnd : (Dict.keys cost.fixed).Nodup)
    (hcan : _can_pay_mixed p cost.fixed = true)
    (hnn : resNonneg p) :
    resNonneg (_pay_with_choice p cost true).1 := by
  have hp1 : resNonneg (_pay_mixed p cost.fixed true) :=
    pay_mixed_nonneg cost.fixed p hnd (can_pay_mixed_forall p cost.fixed hcan) hnn
  simp only [_pay_with_choice, eq_self_iff_true, if_true]
  split
  · exact hp1
  · split
    · exact hp1
    · rename_i rk heq
      split
      · rename_i hused
        intro kv hm
        simp only [removeTok_snd_resources] at hm
        rcases dict_mem_set _ _ _ _ hm with h1 | h1
        · exact hp1 kv h1
        · rw [h1]
          have hav := choose_choice_avail (_pay_mixed p cost.fixed true)
            cost.choiceOneOf rk heq
          have hfst := removeTok_fst_nat (_pay_mixed p cost.fixed true) rk 1 (by omega)
          unfold _available_amount at hav
          show 0 ≤ dGetI (_pay_mixed p cost.fixed true).resources rk - 1
          omega
      · intro kv hm
        simp only [removeTok_snd_resources] at hm
        exact hp1 kv hm

lemma foldl_preserve_mem {α β : Type} (f : β → α → β) (P : β → Prop) :
    ∀ (l : List α), (∀ b a, a ∈ l → P b → P (f b a)) → ∀ b, P b → P (l.foldl f b) := by
  intro l
  induction l with
  | nil => intro _ b hb; exact hb
  | cons x rest ih =>
    intro h b hb
    rw [List.foldl_cons]
    exact ih (fun b a ha => h b a (List.mem_cons_of_mem _ ha)) _
      (h b x (List.mem_cons_self _ _) hb)

lemma grant_resources_nonneg (p : PlayerState) (grants : Dict String Int)
    (hg : ∀ kv ∈ grants, 0 ≤ kv.2) (hnn : resNonneg p) :
    resNonneg (grant_resources p grants) := by
  unfold grant_resources
  refine foldl_preserve_mem _ resNonneg grants ?_ p hnn
  intro q kv hkv hq
  intro kv' hm
  rcases dict_mem_set _ _ _ _ hm with h1 | h1
  · exact hq kv' h1
  · rw [h1]
    have h2 := dGetI_nonneg_of_resNonneg q.resources hq kv.1
    have h3 := hg kv hkv
    show 0 ≤ dGetI q.resources kv.1 + kv.2
    omega

lemma compost_gains_nonneg (c : Card) : ∀ rv ∈ compost_gains_for c, 0 ≤ rv.2 := by
  unfold compost_gains_for
  refine foldl_preserve_mem _ (fun d : Dict String Int => ∀ rv ∈ d, 0 ≤ rv.2) _ ?_ []
    (by simp)
  intro d tag htag hd rv hm
  simp only [] at hm
  repeat' split at hm
  all_goals try exact hd rv hm
  rename_i hguard
  rcases dict_mem_set _ _ _ _ hm with h1 | h1
  · exact hd rv h1
  · rw [h1]
    simp only [Bool.and_eq_true, decide_eq_true_eq] at hguard
    have h2 := dGetI_nonneg_of_resNonneg d hd
      (pyLower (pyTrim ((pySplit tag ":").getD 1 "")))
    show 0 ≤ dGetI d (pyLower (pyTrim ((pySplit tag ":").getD 1 "")))
      + pyInt (pyTrim ((pySplit tag ":").getD 2 ""))
    have h3 := hguard.2
    omega

lemma gnn_emit (g : GameState) (e : Event) (h : gResNonneg g) :
    gResNonneg (g.emit e) := h

lemma player_resNonneg (g : GameState) (pid : Nat) (h : gResNonneg g) :
    resNonneg (g.player pid) := by
  unfold GameState.player List.getD
  cases hx : g.players.get? pid with
  | none => decide
  | some q => exact h q (List.get?_mem hx)

lemma gnn_setPlayer (g : GameState) (pid : Nat) (q : PlayerState)
    (h : gResNonneg g) (hq : resNonneg q) : gResNonneg (g.setPlayer pid q) := by
  intro r hr
  simp only [GameState.setPlayer] at hr
  rcases List.mem_or_eq_of_mem_set hr with h1 | h1
  · exact h r h1
  · rw [h1]
    exact hq

lemma reshuffle_fst_resources (p : PlayerState) (r : Rng) :
    ((reshuffle_if_needed p r).1).resources = p.resources := by
  unfold reshuffle_if_needed
  split <;> rfl

lemma gnn_drawAux (pid : Nat) :
    ∀ (n : Nat) (g : GameState), gResNonneg g → gResNonneg (drawAux g pid n) := by
  intro n
  induction n with
  | zero => intro g hg; exact hg
  | succ m ih =>
    intro g hg
    have hp : resNonneg (g.player pid) := player_resNonneg g pid hg
    simp only [drawAux]
    repeat' split
    all_goals try refine ih _ ?_
    all_goals intro q hq
    all_goals simp only [GameState.setPlayer, GameState.emit] at hq
    all_goals repeat (rcases List.mem_or_eq_of_mem_set hq with hq | hq)
    all_goals first
      | exact hg q hq
      | (rw [hq]
         intro kv hkv
         try simp only [reshuffle_fst_resources] at hkv
         exact hp kv hkv)

lemma gnn_draw (g : GameState) (pid : Nat) (n : Nat) (h : gResNonneg g) :
    gResNonneg (draw g pid n) := gnn_drawAux pid n g h

lemma gnn_claim_initiative (g : GameState) (pid : Nat) (h : gResNonneg g) :
    gResNonneg (g.claim_initiative pid) := by
  unfold GameState.claim_initiative
  cases g.initiative_pid <;> exact fun q hq => h q hq

lemma gnn_compost (g : GameState) (pid : Nat) (idx : Nat) (r : String)
    (h : gResNonneg g) : gResNonneg (compost_from_hand g pid idx r) := by
  have hp := player_resNonneg g pid h
  simp only [compost_from_hand]
  repeat' split
  all_goals first
    | exact h
    | exact gnn_emit _ _ (gnn_setPlayer _ _ _ h (fun kv hkv => hp kv hkv))
    | exact gnn_emit _ _ (gnn_emit _ _ (gnn_setPlayer _ _ _
        (gnn_setPlayer _ _ _ h (fun kv hkv => hp kv hkv))
        (grant_resources_nonneg _ _ (compost_gains_nonneg _)
          (fun kv hkv => hp kv hkv))))

lemma can_pay_mixed_eraseIdx (p : PlayerState) (i : Nat) (cost : Dict String Int)
    (hi : i < p.hand.length) (hne : ∀ k, p.hand.getD i "" ≠ resTok k)
    (h : _can_pay_mixed p cost = true) :
    _can_pay_mixed { p with hand := p.hand.eraseIdx i } cost = true := by
  unfold _can_pay_mixed at h ⊢
  rw [List.all_eq_true] at h ⊢
  intro kv hm
  have hx := h kv hm
  rwa [avail_eraseIdx p i hi hne kv.1]

lemma gnn_libTelemetry (g : GameState) (pid : Nat) (c : Card)
    (h : gResNonneg g) : gResNonneg (libTelemetry g pid c) := by
  simp only [libTelemetry]
  split
  · exact h
  · exact gnn_setPlayer _ _ _ h (fun kv hkv => player_resNonneg g pid h kv hkv)

lemma gnn_libActiveCase (g : GameState) (pid : Nat) (c : Card)
    (h : gResNonneg g) : gResNonneg (libActiveCase g pid c) :=
  gnn_emit _ _ (gnn_setPlayer _ _ _ h
    (fun kv hkv => player_resNonneg g pid h kv hkv))

lemma gnn_discard_append_emit (g2 : GameState) (pid : Nat) (cid : String) (e : Event)
    (h2 : gResNonneg g2) :
    gResNonneg ((g2.setPlayer pid
      { g2.player pid with discard := (g2.player pid).discard ++ [cid] }).emit e) :=
  gnn_emit _ _ (gnn_setPlayer _ _ _ h2 (fun kv hkv => player_resNonneg g2 pid h2 kv hkv))

lemma gnn_libMatCase (g : GameState) (pid : Nat) (c : Card) (s : Int)
    (h : gResNonneg g) : gResNonneg (libMatCase g pid c s) := by
  have hp := player_resNonneg g pid h
  have h1 : gResNonneg (g.setPlayer pid
      { g.player pid with mat := (g.player pid).mat.set s c.id }) :=
    gnn_setPlayer _ _ _ h (fun kv hkv => hp kv hkv)
  simp only [libMatCase]
  repeat' split
  all_goals refine gnn_discard_append_emit _ _ _ _ ?_
  all_goals first
    | exact gnn_emit _ _ (gnn_setPlayer _ _ _ h1 (fun kv hkv => hp kv hkv))
    | exact gnn_compost _ _ _ _ h1
    | exact h1

lemma gnn_vpPlayCase (g : GameState) (pid : Nat) (i : Nat)
    (hvp1 : (Dict.keys g.cfg.vp1_play_cost.fixed).Nodup)
    (hvp3 : (Dict.keys g.cfg.vp3_play_cost.fixed).Nodup)
    (hi : i < (g.player pid).hand.length)
    (hstart : pyStartsWith ((g.player pid).hand.getD i "") "VP:" = true)
    (h : gResNonneg g) :
    gResNonneg (vpPlayCase g pid i ((g.player pid).hand.getD i "")) := by
  have hp := player_resNonneg g pid h
  have hne := vp_tok_ne_resTok _ hstart
  simp only [vpPlayCase]
  split
  · exact h
  · rename_i hcan
    rw [Bool.not_eq_true'] at hcan
    rw [Bool.not_eq_false] at hcan
    have hcanfix : _can_pay_mixed (g.player pid)
        (_vp_play_cost g
          ((pyIntOpt ((pySplit ((g.player pid).hand.getD i "") ":").getD 1 "")).getD 1)).fixed
        = true := by
      unfold _can_pay_with_choice at hcan
      rw [Bool.and_eq_true] at hcan
      exact hcan.1
    have hcanfix' := can_pay_mixed_eraseIdx (g.player pid) i _ hi hne hcanfix
    have hpr : resNonneg (_pay_with_choice
        { g.player pid with hand := (g.player pid).hand.eraseIdx i }
        (_vp_play_cost g
          ((pyIntOpt ((pySplit ((g.player pid).hand.getD i "") ":").getD 1 "")).getD 1))
        true).1 :=
      pay_with_choice_nonneg _ _ (vp_play_cost_fixed_nodup g hvp1 hvp3 _) hcanfix'
        (fun kv hkv => hp kv hkv)
    split
    · exact gnn_setPlayer _ _ _ h (fun kv hkv => hpr kv hkv)
    · exact gnn_emit _ _ (gnn_setPlayer _ _ _ h (fun kv hkv => hpr kv hkv))

lemma gnn_libPlayCase (g : GameState) (pid : Nat) (i : Nat) (c : Card) (toMat : Bool)
    (slot : Option Int)
    (hndc : (Dict.keys c.play_cost).Nodup)
    (hi : i < (g.player pid).hand.length)
    (hne : ∀ k, (g.player pid).hand.getD i "" ≠ resTok k)
    (h : gResNonneg g) :
    gResNonneg (libPlayCase g pid i c toMat slot) := by
  have hp := player_resNonneg g pid h
  simp only [libPlayCase]
  split
  · exact h
  · rename_i hcan
    rw [Bool.not_eq_true'] at hcan
    rw [Bool.not_eq_false] at hcan
    have hcan' := can_pay_mixed_eraseIdx (g.player pid) i _ hi hne hcan
    have hpaid : resNonneg (_pay_mixed
        { g.player pid with hand := (g.player pid).hand.eraseIdx i }
        (discounted_cost c (total_discount_for_card g (g.player pid) c)) true) :=
      pay_mixed_nonneg _ _ (discounted_cost_keys_nodup c _ hndc)
        (can_pay_mixed_forall _ _ hcan') (fun kv hkv => hp kv hkv)
    have hg2 : gResNonneg (g.setPlayer pid (_pay_mixed
        { g.player pid with hand := (g.player pid).hand.eraseIdx i }
        (discounted_cost c (total_discount_for_card g (g.player pid) c)) true)) :=
      gnn_setPlayer _ _ _ h hpaid
    refine gnn_libTelemetry _ _ _ ?_
    split
    · exact gnn_libMatCase _ _ _ _ hg2
    · exact gnn_libActiveCase _ _ _ hg2

lemma gnn_act_play (g : GameState) (pid : Nat) (hIdx : Int) (toMat : Bool)
    (slot : Option Int)
    (hcards : ∀ kv ∈ g.cards, (Dict.keys (kv.2 : Card).play_cost).Nodup)
    (hids : ∀ kv ∈ g.cards, pyStartsWith kv.1 "RES:" = false)
    (hvp1 : (Dict.keys g.cfg.vp1_play_cost.fixed).Nodup)
    (hvp3 : (Dict.keys g.cfg.vp3_play_cost.fixed).Nodup)
    (h : gResNonneg g) : gResNonneg (_act_play g pid hIdx toMat slot) := by
  simp only [_act_play]
  split
  · exact h
  · rename_i hguard
    have hib : hIdx.toNat < (g.player pid).hand.length := by
      simp only [Bool.or_eq_true, decide_eq_true_eq, not_or] at hguard
      omega
    split
    · rename_i hvp
      exact gnn_vpPlayCase g pid hIdx.toNat hvp1 hvp3 hib hvp h
    · rename_i hnotvp
      split
      · exact h
      · rename_i c hc
        have hmem := dict_get?_mem _ _ _ hc
        refine gnn_libPlayCase g pid hIdx.toNat c toMat slot (hcards _ hmem) hib ?_ h
        intro k he
        have hfalse := hids _ hmem
        rw [he] at hfalse
        rw [resTok_startsWith_RES] at hfalse
        exact absurd hfalse (by simp)

lemma gnn_act_buy_pool (g : GameState) (pid : Nat) (j : Int)
    (h : gResNonneg g) : gResNonneg (_act_buy_pool g pid j) := by
  have hp := player_resNonneg g pid h
  simp only [_act_buy_pool]
  split
  · exact h
  · split
    · exact h
    · split
      · exact h
      · rename_i hafford
        refine gnn_emit _ _ ?_
        intro q hq
        simp only [GameState.setPlayer] at hq
        rcases List.mem_or_eq_of_mem_set hq with h1 | h1
        · exact h q h1
        · rw [h1]
          intro kv hkv
          refine pay_mixed_nonneg _ (g.player pid) (by simp [Dict.keys]) ?_ hp kv hkv
          intro kv' hm
          rw [List.mem_singleton] at hm
          subst hm
          exact not_lt.mp hafford

lemma gnn_act_buy_vp (g : GameState) (pid : Nat) (v : Int)
    (h : gResNonneg g) : gResNonneg (_act_buy_vp g pid v) := by
  have hp := player_resNonneg g pid h
  simp only [_act_buy_vp]
  split
  · exact h
  · split
    · split
      · exact h
      · rename_i hafford
        refine gnn_emit _ _ ?_
        intro q hq
        simp only [GameState.setPlayer] at hq
        rcases List.mem_or_eq_of_mem_set hq with h1 | h1
        · exact h q h1
        · rw [h1]
          intro kv hkv
          refine pay_mixed_nonneg _ (g.player pid) (by simp [Dict.keys]) ?_ hp kv hkv
          intro kv' hm
          rw [List.mem_singleton] at hm
          subst hm
          exact not_lt.mp hafford
    · split
      · exact h
      · rename_i hafford
        refine gnn_emit _ _ ?_
        intro q hq
        simp only [GameState.setPlayer] at hq
        rcases List.mem_or_eq_of_mem_set hq with h1 | h1
        · exact h q h1
        · rw [h1]
          intro kv hkv
          refine pay_mixed_nonneg _ (g.player pid) (by simp [Dict.keys]) ?_ hp kv hkv
          intro kv' hm
          rw [List.mem_singleton] at hm
          subst hm
          exact not_lt.mp hafford

lemma gnn_workerFieldEffect (g : GameState) (pid : Nat) (f : String)
    (hforage : 0 ≤ g.forage_yield_bonus_this_round)
    (h : gResNonneg g) : gResNonneg (workerFieldEffect g pid f) := by
  have hp := player_resNonneg g pid h
  simp only [workerFieldEffect]
  repeat' split
  all_goals first
    | exact h
    | exact gnn_draw _ _ _ h
    | exact gnn_compost _ _ _ _ h
    | exact gnn_claim_initiative _ _ h
    | refine gnn_setPlayer _ _ _ h ?_
  all_goals intro kv hkv
  all_goals rcases dict_mem_set _ _ _ _ hkv with h1 | h1
  all_goals first
    | exact hp kv h1
    | (rw [h1]
       show (0:Int) ≤ dGetI (g.player pid).resources "plasma" + 1
       have := dGetI_nonneg_of_resNonneg _ hp "plasma"
       omega)
    | (rw [h1]
       show (0:Int) ≤ dGetI (g.player pid).resources "ash" + 1
       have := dGetI_nonneg_of_resNonneg _ hp "ash"
       omega)
    | (rw [h1]
       show (0:Int) ≤ dGetI (g.player pid).resources "shards" + 1
       have := dGetI_nonneg_of_resNonneg _ hp "shards"
       omega)
    | (rw [h1]
       show (0:Int) ≤ dGetI (g.player pid).resources "nut"
         + (1 + g.forage_yield_bonus_this_round)
       have := dGetI_nonneg_of_resNonneg _ hp "nut"
       omega)

lemma gnn_act_worker (g : GameState) (pid : Nat) (f : String)
    (hforage : 0 ≤ g.forage_yield_bonus_this_round)
    (h : gResNonneg g) : gResNonneg (_act_worker g pid f) := by
  simp only [_act_worker]
  repeat' split
  all_goals try exact h
  have hw := gnn_workerFieldEffect g pid f hforage h
  refine gnn_emit _ _ ?_
  intro q hq
  simp only [GameState.setPlayer] at hq
  rcases List.mem_or_eq_of_mem_set hq with h1 | h1
  · exact hw q h1
  · rw [h1]
    intro kv hkv
    exact player_resNonneg (workerFieldEffect g pid f) pid hw kv hkv

/-- C10: starting from a state in which every player's resource counters
are ≥ 0, `apply_action` — on any action: legal, stale, or malformed —
leaves every player's resource counters ≥ 0. Every payment path re-checks
affordability against the current state before mutating, `_pay_mixed`
consumes hand tokens before counters and subtracts only the counter
remainder, and the pay-one-of step picks a key whose availability is at
least 1 (so even the C1 partial-payment failure path, where only the
fixed part is paid, leaves no counter negative); worker and compost
effects only add nonnegative amounts. The hypotheses encode state
well-formedness: cost dicts have duplicate-free keys (Python dict keys
are unique), no card id is a RES: token string, and the forage round
bonus is nonnegative. -/
theorem C10_resource_counters_stay_nonnegative
    (g : GameState) (pid : Nat) (a : Action)
    (hcards : ∀ kv ∈ g.cards, (Dict.keys (kv.2 : Card).play_cost).Nodup)
    (hids : ∀ kv ∈ g.cards, pyStartsWith kv.1 "RES:" = false)
    (hvp1 : (Dict.keys g.cfg.vp1_play_cost.fixed).Nodup)
    (hvp3 : (Dict.keys g.cfg.vp3_play_cost.fixed).Nodup)
    (hforage : 0 ≤ g.forage_yield_bonus_this_round)
    (hnn : gResNonneg g) :
    gResNonneg (apply_action g pid a) := by
  cases a with
  | play i toMat slot => exact gnn_act_play g pid i toMat slot hcards hids hvp1 hvp3 hnn
  | buyPool j => exact gnn_act_buy_pool g pid j hnn
  | buyVp v => exact gnn_act_buy_vp g pid v hnn
  | worker f => exact gnn_act_worker g pid f hforage hnn
  | passAct => exact gnn_emit _ _ hnn

/-- C10 witness: the theorem applied at `c10Game` on the C1 scenario
action — playing the VP:1 token whose choice payment fails after the
fixed part is paid. -/
theorem C10_nonneg_witness :
    gResNonneg (apply_action c10Game 0 (Action.play 0 false none)) :=
  C10_resource_counters_stay_nonnegative c10Game 0 (Action.play 0 false none)
    (by decide) (by decide) (by decide) (by decide) (by decide) (by decide)

end Scarecrovv
